import Mathlib

/-
  Verification development for the Harbor Trajectory Planner.

  The trajectory core (leg builder, spline/geodesy helpers, playback
  interpolator) is shallowly embedded below.  All numeric code is embedded
  over an arbitrary linear ordered field `α` with an explicit record
  `MathOps α` holding the transcendental primitives (sin, cos, asin, sqrt,
  atan2, pi, pow x 1.5) that the JavaScript source takes from `Math`.
  Instantiating `α := ℚ` with concrete operation tables makes every
  definition computable for witness evaluation; instantiating `α := ℝ`
  with the genuine real functions (`realOps`) gives the analytic facts.
  JavaScript `%` on numbers (remainder with the sign of the dividend) is
  embedded as `jsMod`, and the `NaN` sentinel stored in the optional
  `courseCorrectionAngle` field is embedded as the `JsNum.nan` constructor.
-/

namespace Harbor

/-- Geographic point, `{lat, lng}` in degrees. -/
structure GeoPoint (α : Type) where
  lat : α
  lng : α
deriving DecidableEq, Repr

/-- Propulsion direction enum from `types.ts`. -/
inductive PropulsionDirection where
  | FORWARD
  | ASTERN
deriving DecidableEq, Repr

/-- Waypoint: a geo point plus id and the optional per-leg inputs. -/
structure Waypoint (α : Type) extends GeoPoint α where
  id : α
  speedToNext : Option α
  propulsionDirection : Option PropulsionDirection
deriving DecidableEq, Repr

/-- Ship dimensions from `types.ts`. -/
structure Ship (α : Type) where
  length : α
  beam : α
  turningRadius : α
deriving DecidableEq, Repr

/-- A wind or current entry: speed in knots, direction in degrees (from). -/
structure Flow (α : Type) where
  speed : α
  direction : α
deriving DecidableEq, Repr

/-- Environmental factors from `types.ts`. -/
structure EnvironmentalFactors (α : Type) where
  driftEnabled : Bool
  wind : Flow α
  current : Flow α
deriving DecidableEq, Repr

/-- Navigation command enum from `types.ts`. -/
inductive NavigationCommand where
  | START
  | PORT
  | STARBOARD
  | STRAIGHT
  | END
deriving DecidableEq, Repr

/-- Embedding of the JavaScript number stored in `courseCorrectionAngle`:
either an ordinary value or the `NaN` sentinel the source assigns when the
course cannot be maintained. -/
inductive JsNum (α : Type) where
  | num (x : α)
  | nan
deriving DecidableEq, Repr

/-- Trajectory leg record from `types.ts`.  The `end` field of the source is
named `endWp` because `end` is a Lean keyword.  Optional drift fields are
`Option`s (`none` embeds JavaScript `undefined`). -/
structure TrajectoryLeg (α : Type) where
  id : α
  start : Waypoint α
  endWp : Waypoint α
  distance : α
  curveDistance : α
  course : α
  startHeading : α
  endHeading : α
  command : NavigationCommand
  turnAngle : α
  turnRadiusViolation : Bool
  speed : α
  time : α
  pivotTime : α
  propulsion : PropulsionDirection
  sog : Option α
  cogCourse : Option α
  predictedEnd : Option (GeoPoint α)
  courseCorrectionAngle : Option (JsNum α)
deriving DecidableEq, Repr

/-- Animation state from `types.ts`. -/
structure AnimationState (α : Type) where
  position : GeoPoint α
  heading : α
  speed : α
deriving DecidableEq, Repr

/-- The primitive `Math.*` operations the source uses, packaged so that the
embedding is parametric in them. -/
structure MathOps (α : Type) where
  sin : α → α
  cos : α → α
  asin : α → α
  sqrt : α → α
  atan2 : α → α → α
  pi : α
  pow15 : α → α

variable {α : Type} [LinearOrderedField α] [FloorRing α]

instance : Inhabited (GeoPoint α) := ⟨⟨0, 0⟩⟩

instance : Inhabited (Waypoint α) := ⟨⟨⟨0, 0⟩, 0, none, none⟩⟩

instance : Inhabited (TrajectoryLeg α) :=
  ⟨⟨0, default, default, 0, 0, 0, 0, 0, NavigationCommand.START, 0, false, 0, 0, 0,
    PropulsionDirection.FORWARD, none, none, none, none⟩⟩

/-- Truncation toward zero, as JavaScript's remainder operator uses. -/
def rtrunc (q : α) : ℤ :=
  if 0 ≤ q then ⌊q⌋ else ⌈q⌉

/-- JavaScript `%` on numbers: remainder carrying the sign of the dividend. -/
def jsMod (a b : α) : α :=
  a - b * (rtrunc (a / b) : α)

/-- Earth radius in metres (`const R = 6371e3`). -/
def earthR : α := 6371000

/-- Degrees to radians (`toRad`). -/
def toRad (ops : MathOps α) (deg : α) : α := deg * ops.pi / 180

/-- Radians to degrees (`toDeg`). -/
def toDeg (ops : MathOps α) (rad : α) : α := rad * 180 / ops.pi

/-- Haversine great-circle distance (`getDistance`). -/
def getDistance (ops : MathOps α) (p1 p2 : GeoPoint α) : α :=
  let lat1 := toRad ops p1.lat
  let lat2 := toRad ops p2.lat
  let deltaLat := toRad ops (p2.lat - p1.lat)
  let deltaLng := toRad ops (p2.lng - p1.lng)
  let a := ops.sin (deltaLat / 2) * ops.sin (deltaLat / 2) +
      ops.cos lat1 * ops.cos lat2 * (ops.sin (deltaLng / 2) * ops.sin (deltaLng / 2))
  let c := 2 * ops.atan2 (ops.sqrt a) (ops.sqrt (1 - a))
  earthR * c

/-- Initial bearing in degrees (`getBearing`), with the coincident-point
guard returning 0. -/
def getBearing (ops : MathOps α) (p1 p2 : GeoPoint α) : α :=
  if p1.lat = p2.lat ∧ p1.lng = p2.lng then 0
  else
    let lat1 := toRad ops p1.lat
    let lng1 := toRad ops p1.lng
    let lat2 := toRad ops p2.lat
    let lng2 := toRad ops p2.lng
    let y := ops.sin (lng2 - lng1) * ops.cos lat2
    let x := ops.cos lat1 * ops.sin lat2 - ops.sin lat1 * ops.cos lat2 * ops.cos (lng2 - lng1)
    let theta := ops.atan2 y x
    jsMod (theta * 180 / ops.pi + 360) 360

/-- Direct geodesic solution (`destinationPoint`). -/
def destinationPoint (ops : MathOps α) (point : GeoPoint α) (distance bearing : α) : GeoPoint α :=
  let brng := toRad ops bearing
  let lat1 := toRad ops point.lat
  let lon1 := toRad ops point.lng
  let lat2 := ops.asin (ops.sin lat1 * ops.cos (distance / earthR) +
      ops.cos lat1 * ops.sin (distance / earthR) * ops.cos brng)
  let lon2 := lon1 + ops.atan2 (ops.sin brng * ops.sin (distance / earthR) * ops.cos lat1)
      (ops.cos (distance / earthR) - ops.sin lat1 * ops.sin lat2)
  ⟨toDeg ops lat2, toDeg ops lon2⟩

/-- Uniform Catmull-Rom basis on one coordinate axis (`catmullRomSpline`). -/
def catmullRomSpline (t p0 p1 p2 p3 : α) : α :=
  let t2 := t * t
  let t3 := t2 * t
  (1 / 2) * ((2 * p1) + (-p0 + p2) * t +
    (2 * p0 - 5 * p1 + 4 * p2 - p3) * t2 +
    (-p0 + 3 * p1 - 3 * p2 + p3) * t3)

/-- Derivative of the Catmull-Rom basis (`catmullRomSplineDerivative`). -/
def catmullRomSplineDerivative (t p0 p1 p2 p3 : α) : α :=
  let t2 := t * t
  (1 / 2) * ((-p0 + p2) +
    2 * (2 * p0 - 5 * p1 + 4 * p2 - p3) * t +
    3 * (-p0 + 3 * p1 - 3 * p2 + p3) * t2)

/-- Catmull-Rom point, evaluated per coordinate axis (`getPointOnCatmullRom`). -/
def getPointOnCatmullRom (t : α) (p0 p1 p2 p3 : GeoPoint α) : GeoPoint α :=
  ⟨catmullRomSpline t p0.lat p1.lat p2.lat p3.lat,
   catmullRomSpline t p0.lng p1.lng p2.lng p3.lng⟩

/-- Tangent heading on the Catmull-Rom curve (`getHeadingOnCatmullRom`). -/
def getHeadingOnCatmullRom (ops : MathOps α) (t : α) (p0 p1 p2 p3 : GeoPoint α) : α :=
  let currentPoint := getPointOnCatmullRom t p0 p1 p2 p3
  let dLat := catmullRomSplineDerivative t p0.lat p1.lat p2.lat p3.lat
  let dLng := catmullRomSplineDerivative t p0.lng p1.lng p2.lng p3.lng
  let metersPerDegLat : α := 111132954 / 1000
  let metersPerDegLng := 111320 * ops.cos (toRad ops currentPoint.lat)
  let dy := dLat * metersPerDegLat
  let dx := dLng * metersPerDegLng
  let angleRad := ops.atan2 dx dy
  jsMod (angleRad * 180 / ops.pi + 360) 360

/-- Sampled curve length (`calculateCurveLength`, 20 segments by default):
fold over `i = 1..segments` accumulating the haversine distance between
consecutive sampled points. -/
def calculateCurveLength (ops : MathOps α) (p0 p1 p2 p3 : GeoPoint α)
    (segments : ℕ) : α :=
  (((List.range segments).map (fun i => ((i : α) + 1) / (segments : α))).foldl
    (fun (acc : α × GeoPoint α) t =>
      let currentPoint := getPointOnCatmullRom t p0 p1 p2 p3
      (acc.1 + getDistance ops acc.2 currentPoint, currentPoint))
    (0, getPointOnCatmullRom 0 p0 p1 p2 p3)).1

/-- The curvature denominator `|x'·y'' − y'·x''|` of `calculateTurnRadius`,
factored out so theorems can refer to it. -/
def turnRadiusDenominator (ops : MathOps α) (p0 p1 p2 p3 : GeoPoint α) : α :=
  let lngPrime := (1 / 2) * (p2.lng - p0.lng)
  let latPrime := (1 / 2) * (p2.lat - p0.lat)
  let lngDoublePrime := 2 * p0.lng - 5 * p1.lng + 4 * p2.lng - p3.lng
  let latDoublePrime := 2 * p0.lat - 5 * p1.lat + 4 * p2.lat - p3.lat
  let metersPerDegLat : α := 111132954 / 1000
  let metersPerDegLng := 111320 * ops.cos (toRad ops p1.lat)
  let xPrime := lngPrime * metersPerDegLng
  let yPrime := latPrime * metersPerDegLat
  let xDoublePrime := lngDoublePrime * metersPerDegLng
  let yDoublePrime := latDoublePrime * metersPerDegLat
  |xPrime * yDoublePrime - yPrime * xDoublePrime|

/-- Radius of curvature at t=0 (`calculateTurnRadius`); `none` embeds the
`Infinity` returned when the denominator is below `1e-6`. -/
def calculateTurnRadius (ops : MathOps α) (p0 p1 p2 p3 : GeoPoint α) : Option α :=
  let lngPrime := (1 / 2) * (p2.lng - p0.lng)
  let latPrime := (1 / 2) * (p2.lat - p0.lat)
  let metersPerDegLat : α := 111132954 / 1000
  let metersPerDegLng := 111320 * ops.cos (toRad ops p1.lat)
  let xPrime := lngPrime * metersPerDegLng
  let yPrime := latPrime * metersPerDegLat
  let numerator := ops.pow15 (xPrime * xPrime + yPrime * yPrime)
  let denominator := turnRadiusDenominator ops p0 p1 p2 p3
  if denominator < 1 / 1000000 then none
  else some (numerator / denominator)

/-- The propulsion of the leg starting at waypoint `i`
(`start.propulsionDirection ?? FORWARD`; an out-of-range access yields the
default waypoint, whose direction is `none`, matching `undefined ?? FORWARD`). -/
def propulsionOf (wps : List (Waypoint α)) (i : ℕ) : PropulsionDirection :=
  ((wps.getD i default).propulsionDirection).getD PropulsionDirection.FORWARD

/-- `waypoints[i-1]?.propulsionDirection ?? FORWARD`: for `i = 0` the
JavaScript access `waypoints[-1]` is `undefined`, hence `FORWARD`. -/
def prevPropulsionOf (wps : List (Waypoint α)) (i : ℕ) : PropulsionDirection :=
  if i = 0 then PropulsionDirection.FORWARD else propulsionOf wps (i - 1)

/-- `pivotTime = (i > 0 && propulsion !== prevPropulsion) ? pivotDuration : 0`. -/
def pivotTimeOf (wps : List (Waypoint α)) (pivotDuration : α) (i : ℕ) : α :=
  if 0 < i ∧ propulsionOf wps i ≠ prevPropulsionOf wps i then pivotDuration else 0

/-- The straight-line course of leg `i`: `getBearing(start, end)`. -/
def legCourse (ops : MathOps α) (wps : List (Waypoint α)) (i : ℕ) : α :=
  getBearing ops (wps.getD i default).toGeoPoint (wps.getD (i + 1) default).toGeoPoint

/-- Control points `p0, p1, p2, p3` for leg `i`, with the sharp-corner
collapsing of the source: `p0` collapses to the start when the leg pivots,
`p3` collapses to the end when the next leg will pivot or is absent. -/
def legControlPoints (wps : List (Waypoint α)) (pivotDuration : α) (i : ℕ) :
    GeoPoint α × GeoPoint α × GeoPoint α × GeoPoint α :=
  let start := (wps.getD i default).toGeoPoint
  let endP := (wps.getD (i + 1) default).toGeoPoint
  let p0 := if 0 < i ∧ pivotTimeOf wps pivotDuration i = 0
    then (wps.getD (i - 1) default).toGeoPoint else start
  let p3 := match wps.get? (i + 2) with
    | some w => if propulsionOf wps (i + 1) = propulsionOf wps i then w.toGeoPoint else endP
    | none => endP
  (p0, start, endP, p3)

/-- `speedKnots = start.speedToNext ?? 5.0` for leg `i`. -/
def speedKnotsOf (wps : List (Waypoint α)) (i : ℕ) : α :=
  ((wps.getD i default).speedToNext).getD 5

/-- `speedMps = speedKnots * 0.514444`. -/
def speedMpsOf (wps : List (Waypoint α)) (i : ℕ) : α :=
  speedKnotsOf wps i * (514444 / 1000000)

/-- `curveDistance = calculateCurveLength(p0, p1, p2, p3)` for leg `i`. -/
def curveDistanceOf (ops : MathOps α) (wps : List (Waypoint α)) (pivotDuration : α) (i : ℕ) : α :=
  let cp := legControlPoints wps pivotDuration i
  calculateCurveLength ops cp.1 cp.2.1 cp.2.2.1 cp.2.2.2 20

/-- `moveTime = speedMps > 0 ? curveDistance / speedMps : 0` for leg `i`. -/
def moveTimeOf (ops : MathOps α) (wps : List (Waypoint α)) (pivotDuration : α) (i : ℕ) : α :=
  if 0 < speedMpsOf wps i then curveDistanceOf ops wps pivotDuration i / speedMpsOf wps i else 0

/-- The start heading of leg `i`: the tangent bearing `getBearing(p0, p2)`,
rotated 180° when the propulsion is Astern. -/
def startHeadingOf (ops : MathOps α) (wps : List (Waypoint α)) (pivotDuration : α) (i : ℕ) : α :=
  let cp := legControlPoints wps pivotDuration i
  let tangentAtStart := getBearing ops cp.1 cp.2.2.1
  if propulsionOf wps i = PropulsionDirection.ASTERN
    then jsMod (tangentAtStart + 180) 360 else tangentAtStart

/-- The end heading of leg `i`: the tangent bearing `getBearing(p1, p3)`,
rotated 180° when the propulsion is Astern. -/
def endHeadingOf (ops : MathOps α) (wps : List (Waypoint α)) (pivotDuration : α) (i : ℕ) : α :=
  let cp := legControlPoints wps pivotDuration i
  let tangentAtEnd := getBearing ops cp.2.1 cp.2.2.2
  if propulsionOf wps i = PropulsionDirection.ASTERN
    then jsMod (tangentAtEnd + 180) 360 else tangentAtEnd

/-- The signed turn angle of leg `i`: the course difference put through the
two sequential wrap adjustments of the source (0 for the first leg). -/
def turnAngleOf (course : α) (previousCourse : Option α) (i : ℕ) : α :=
  if i = 0 then 0
  else
    let a0 := course - previousCourse.getD 0
    let a1 := if 180 < a0 then a0 - 360 else a0
    if a1 < -180 then a1 + 360 else a1

/-- Command classification of leg `i`: START for the first leg, otherwise
by the ±5° threshold on the turn angle. -/
def commandOf (course : α) (previousCourse : Option α) (i : ℕ) : NavigationCommand :=
  if i = 0 then NavigationCommand.START
  else
    let t := turnAngleOf course previousCourse i
    if 5 < |t| then
      (if 0 < t then NavigationCommand.PORT else NavigationCommand.STARBOARD)
    else NavigationCommand.STRAIGHT

/-- The drift-related outputs of one leg. -/
structure DriftData (α : Type) where
  sog : Option α
  cogCourse : Option α
  predictedEnd : Option (GeoPoint α)
  courseCorrectionAngle : Option (JsNum α)
deriving DecidableEq, Repr

/-- The total drift velocity vector `(totalDriftVx, totalDriftVy)` from the
current and the wind leeway (3% of wind speed), each applied 180° from its
stated direction. -/
def totalDriftV (ops : MathOps α) (env : EnvironmentalFactors α) : α × α :=
  let hasCurrent := 0 < env.current.speed
  let hasWind := 0 < env.wind.speed
  let currentVx := if hasCurrent then
      (env.current.speed * (514444 / 1000000)) *
        ops.sin (toRad ops (jsMod (env.current.direction + 180) 360)) else 0
  let currentVy := if hasCurrent then
      (env.current.speed * (514444 / 1000000)) *
        ops.cos (toRad ops (jsMod (env.current.direction + 180) 360)) else 0
  let windVx := if hasWind then
      (env.wind.speed * (514444 / 1000000) * (3 / 100)) *
        ops.sin (toRad ops (jsMod (env.wind.direction + 180) 360)) else 0
  let windVy := if hasWind then
      (env.wind.speed * (514444 / 1000000) * (3 / 100)) *
        ops.cos (toRad ops (jsMod (env.wind.direction + 180) 360)) else 0
  (currentVx + windVx, currentVy + windVy)

/-- The solved sine of the course correction angle:
`sin(CCA) = (|drift| / shipSpeed) · sin(shipCourseAngle − driftAngle)`. -/
def sineOfCCA (ops : MathOps α) (env : EnvironmentalFactors α) (course speedMps : α) : α :=
  let v := totalDriftV ops env
  let totalDriftSpeedMps := ops.sqrt (v.1 * v.1 + v.2 * v.2)
  let totalDriftAngleRad := ops.atan2 v.1 v.2
  (totalDriftSpeedMps / speedMps) * ops.sin (toRad ops course - totalDriftAngleRad)

/-- The course correction angle result: computed only when `speedMps > 0`;
the `NaN` sentinel when the solved sine is out of the range of `asin`. -/
def ccaOf (ops : MathOps α) (env : EnvironmentalFactors α) (course speedMps : α) :
    Option (JsNum α) :=
  if 0 < speedMps then
    let s := sineOfCCA ops env course speedMps
    if |s| ≤ 1 then some (JsNum.num (toDeg ops (ops.asin s)))
    else some JsNum.nan
  else none

/-- The drift block of `calculateTrajectory` (entered when `driftEnabled`):
either the vector solve (some forcing active) or the intended-delta advance
(no forcing active). -/
def driftFields (ops : MathOps α) (env : EnvironmentalFactors α)
    (course speedMps moveTime : α) (startP endP pos : GeoPoint α) : DriftData α :=
  let hasCurrent := 0 < env.current.speed
  let hasWind := 0 < env.wind.speed
  if hasCurrent ∨ hasWind then
    let shipAngleRad := toRad ops course
    let shipVx := speedMps * ops.sin shipAngleRad
    let shipVy := speedMps * ops.cos shipAngleRad
    let v := totalDriftV ops env
    let sogVx := shipVx + v.1
    let sogVy := shipVy + v.2
    let sogMps := ops.sqrt (sogVx * sogVx + sogVy * sogVy)
    let cogAngleRad := ops.atan2 sogVx sogVy
    let sog := sogMps / (514444 / 1000000)
    let cogCourse := jsMod (toDeg ops cogAngleRad + 360) 360
    let predictedEnd := destinationPoint ops pos (sogMps * moveTime) cogCourse
    ⟨some sog, some cogCourse, some predictedEnd, ccaOf ops env course speedMps⟩
  else
    let deltaLat := endP.lat - startP.lat
    let deltaLng := endP.lng - startP.lng
    ⟨none, none, some ⟨pos.lat + deltaLat, pos.lng + deltaLng⟩, none⟩

/-- One iteration of the `calculateTrajectory` loop: builds the leg for the
adjacent pair `(waypoints[i], waypoints[i+1])` and returns it together with
the updated running predicted position. -/
def buildLeg (ops : MathOps α) (wps : List (Waypoint α)) (ship : Ship α)
    (pivotDuration : α) (env : EnvironmentalFactors α) (i : ℕ)
    (previousCourse : Option α) (currentPredictedPosition : GeoPoint α) :
    TrajectoryLeg α × GeoPoint α :=
  let start := wps.getD i default
  let endWp := wps.getD (i + 1) default
  let propulsion := propulsionOf wps i
  let pivotTime := pivotTimeOf wps pivotDuration i
  let distance := getDistance ops start.toGeoPoint endWp.toGeoPoint
  let course := legCourse ops wps i
  let cp := legControlPoints wps pivotDuration i
  let curveDistance := curveDistanceOf ops wps pivotDuration i
  let startHeading := startHeadingOf ops wps pivotDuration i
  let endHeading := endHeadingOf ops wps pivotDuration i
  let speedKnots := speedKnotsOf wps i
  let speedMps := speedMpsOf wps i
  let moveTime := moveTimeOf ops wps pivotDuration i
  let totalTime := moveTime + pivotTime
  let df := if env.driftEnabled
    then driftFields ops env course speedMps moveTime start.toGeoPoint endWp.toGeoPoint
      currentPredictedPosition
    else ⟨none, none, none, none⟩
  let command := commandOf course previousCourse i
  let turnAngle := turnAngleOf course previousCourse i
  let turnRadiusViolation :=
    if (command = NavigationCommand.PORT ∨ command = NavigationCommand.STARBOARD) ∧
        pivotTime = 0 then
      match calculateTurnRadius ops cp.1 cp.2.1 cp.2.2.1 cp.2.2.2 with
      | none => false
      | some r => decide (r < ship.turningRadius)
    else false
  let newPos := if env.driftEnabled then
      (match df.predictedEnd with
       | some pe => pe
       | none => currentPredictedPosition)
    else currentPredictedPosition
  (⟨start.id, start, endWp, distance, curveDistance, course, startHeading, endHeading,
    command, turnAngle, turnRadiusViolation, speedKnots, totalTime, pivotTime, propulsion,
    df.sog, df.cogCourse, df.predictedEnd, df.courseCorrectionAngle⟩, newPos)

/-- The `calculateTrajectory` loop: `k` iterations remaining, current index
`i`, threading `previousCourse` and the running predicted position. -/
def calcLegs (ops : MathOps α) (wps : List (Waypoint α)) (ship : Ship α)
    (pivotDuration : α) (env : EnvironmentalFactors α) :
    ℕ → ℕ → Option α → GeoPoint α → List (TrajectoryLeg α)
  | 0, _, _, _ => []
  | k + 1, i, previousCourse, pos =>
    let r := buildLeg ops wps ship pivotDuration env i previousCourse pos
    r.1 :: calcLegs ops wps ship pivotDuration env k (i + 1) (some r.1.course) r.2

/-- The terminal END entry appended after the loop, copying course and
headings from the last real leg for display continuity. -/
def terminalLeg (lastWaypoint : Waypoint α) (finalLeg : Option (TrajectoryLeg α)) :
    TrajectoryLeg α :=
  ⟨lastWaypoint.id, lastWaypoint, lastWaypoint, 0, 0,
   (match finalLeg with | some fl => fl.course | none => 0),
   (match finalLeg with | some fl => fl.endHeading | none => 0),
   (match finalLeg with | some fl => fl.endHeading | none => 0),
   NavigationCommand.END, 0, false, 0, 0, 0,
   (match finalLeg with | some fl => fl.propulsion | none => PropulsionDirection.FORWARD),
   none, none, none, none⟩

/-- `calculateTrajectory` (the spec's `buildLegs`): empty for fewer than two
waypoints, otherwise one leg per adjacent pair followed by the terminal
END entry. -/
def calculateTrajectory (ops : MathOps α) (wps : List (Waypoint α)) (ship : Ship α)
    (pivotDuration : α) (env : EnvironmentalFactors α) : List (TrajectoryLeg α) :=
  if wps.length < 2 then []
  else
    let legs := calcLegs ops wps ship pivotDuration env (wps.length - 1) 0 none
      (wps.getD 0 default).toGeoPoint
    if 0 < wps.length then
      legs ++ [terminalLeg (wps.getD (wps.length - 1) default) legs.getLast?]
    else legs

/-- `predictedPathPoints` from `useAnimation.ts`: the drift-adjusted node
list used for playback positions, falling back to the raw waypoints. -/
def predictedPathPoints (legs : List (TrajectoryLeg α)) (wps : List (Waypoint α)) :
    List (GeoPoint α) :=
  if wps.length = 0 ∨ ¬ legs.any (fun l => l.predictedEnd.isSome) then
    wps.map Waypoint.toGeoPoint
  else
    let predictedEnds := legs.filterMap TrajectoryLeg.predictedEnd
    if 0 < wps.length ∧ predictedEnds.length = wps.length - 1 then
      (wps.getD 0 default).toGeoPoint :: predictedEnds
    else wps.map Waypoint.toGeoPoint

/-- The truthiness-guarded course correction used by the interpolator:
`(cca && !isNaN(cca)) ? cca : 0` — `undefined`, `NaN` and `0` all give 0. -/
def jsCorrection : Option (JsNum α) → α
  | some (JsNum.num x) => if x = 0 then 0 else x
  | some JsNum.nan => 0
  | none => 0

/-- `legProgress = moveTime > 0 ? timeIntoMove / moveTime : 1`. -/
def moveLegProgress (leg : TrajectoryLeg α) (timeIntoLeg : α) : α :=
  let moveTime := leg.time - leg.pivotTime
  let timeIntoMove := timeIntoLeg - leg.pivotTime
  if 0 < moveTime then timeIntoMove / moveTime else 1

/-- The move-phase intended heading: Catmull-Rom tangent over the raw
waypoints with the sharp-corner collapsing rule, flipped 180° for Astern. -/
def moveIntendedHeading (ops : MathOps α) (wps : List (Waypoint α)) (i : ℕ)
    (leg : TrajectoryLeg α) (legProgress : α) : α :=
  let prevPropulsion := prevPropulsionOf wps i
  let nextPropulsion := propulsionOf wps (i + 1)
  let p0 := if 0 < i ∧ leg.propulsion = prevPropulsion
    then (wps.getD (i - 1) default).toGeoPoint else (wps.getD i default).toGeoPoint
  let p1 := (wps.getD i default).toGeoPoint
  let p2 := (wps.getD (i + 1) default).toGeoPoint
  let p3 := match wps.get? (i + 2) with
    | some w => if nextPropulsion = leg.propulsion then w.toGeoPoint else p2
    | none => p2
  let intendedHeading := getHeadingOnCatmullRom ops legProgress p0 p1 p2 p3
  if leg.propulsion = PropulsionDirection.ASTERN
    then jsMod (intendedHeading + 180) 360 else intendedHeading

/-- The state produced for the leg at index `i` once the playback walk has
selected it: pivot phase when `timeIntoLeg < pivotTime`, move phase
otherwise. -/
def legStateAt (ops : MathOps α) (legs : List (TrajectoryLeg α))
    (wps : List (Waypoint α)) (ppp : List (GeoPoint α)) (i : ℕ) (timeIntoLeg : α) :
    AnimationState α :=
  let leg := legs.getD i default
  if timeIntoLeg < leg.pivotTime then
    let pivotProgress := if 0 < leg.pivotTime then timeIntoLeg / leg.pivotTime else 1
    let startPivotHeading := if 0 < i then (legs.getD (i - 1) default).endHeading
      else leg.startHeading
    let endPivotHeading := leg.startHeading
    let a0 := endPivotHeading - startPivotHeading
    let a1 := if 180 < a0 then a0 - 360 else a0
    let angleDiff := if a1 < -180 then a1 + 360 else a1
    ⟨ppp.getD i default, startPivotHeading + angleDiff * pivotProgress, 0⟩
  else
    let legProgress := moveLegProgress leg timeIntoLeg
    let prevPropulsion := prevPropulsionOf wps i
    let nextPropulsion := propulsionOf wps (i + 1)
    let pos0 := if 0 < i ∧ leg.propulsion = prevPropulsion
      then ppp.getD (i - 1) default else ppp.getD i default
    let pos1 := ppp.getD i default
    let pos2 := ppp.getD (i + 1) default
    let pos3 := match ppp.get? (i + 2) with
      | some p => if nextPropulsion = leg.propulsion then p else pos2
      | none => pos2
    let position := getPointOnCatmullRom legProgress pos0 pos1 pos2 pos3
    let intendedHeading := moveIntendedHeading ops wps i leg legProgress
    let correction := jsCorrection leg.courseCorrectionAngle
    ⟨position, jsMod (intendedHeading + correction + 360) 360, leg.speed⟩

/-- The leg-selection walk of `calculateAnimationState`: skip END legs,
take the first leg whose accumulated end time reaches `currentTime`, or the
second-to-last entry as the overshoot absorber.  Returns the selected index
and the time into that leg. -/
def selectLeg (legs : List (TrajectoryLeg α)) (currentTime : α) :
    ℕ → ℕ → α → Option (ℕ × α)
  | 0, _, _ => none
  | fuel + 1, i, accumulatedTime =>
    match legs.get? i with
    | none => none
    | some leg =>
      if leg.command = NavigationCommand.END then
        selectLeg legs currentTime fuel (i + 1) accumulatedTime
      else if currentTime ≤ accumulatedTime + leg.time ∨
          (i : ℤ) = (legs.length : ℤ) - 2 then
        some (i, currentTime - accumulatedTime)
      else selectLeg legs currentTime fuel (i + 1) (accumulatedTime + leg.time)

/-- `calculateAnimationState` from `useAnimation.ts`: maps a progress
fraction to an interpolated animation state, with the end-of-walk fallback
to the last real leg. -/
def calculateAnimationState (ops : MathOps α) (legs : List (TrajectoryLeg α))
    (wps : List (Waypoint α)) (progress totalDuration : α) : Option (AnimationState α) :=
  let currentTime := progress * totalDuration
  let ppp := predictedPathPoints legs wps
  match selectLeg legs currentTime legs.length 0 0 with
  | some (i, timeIntoLeg) => some (legStateAt ops legs wps ppp i timeIntoLeg)
  | none =>
    match (if 2 ≤ legs.length then legs.get? (legs.length - 2) else none) with
    | some lastLeg =>
      let correction := jsCorrection lastLeg.courseCorrectionAngle
      some ⟨ppp.getD (ppp.length - 1) default,
        jsMod (lastLeg.endHeading + correction + 360) 360, 0⟩
    | none => none

/-- Erase the four optional drift fields of a leg, keeping everything else. -/
def stripDrift (l : TrajectoryLeg α) : TrajectoryLeg α :=
  { l with sog := none, cogCourse := none, predictedEnd := none,
           courseCorrectionAngle := none }

/-- Modelled from the spec: the unique normalization of an angle into the
half-open interval `(−180, 180]`, for comparison against the wrap the code
performs. -/
def specNormalize180 (x : α) : α :=
  x - 360 * (⌈(x - 180) / 360⌉ : ℤ)

/-- The sequential ±360 wrap the source applies to heading differences
(subtract 360 if above 180, then add 360 if below −180). -/
def wrapSeq (a0 : α) : α :=
  let a1 := if 180 < a0 then a0 - 360 else a0
  if a1 < -180 then a1 + 360 else a1

/-- JavaScript `Math.atan2` over the reals (standard branch convention). -/
noncomputable def jsAtan2 (y x : ℝ) : ℝ :=
  if 0 < x then Real.arctan (y / x)
  else if x < 0 then
    (if 0 ≤ y then Real.arctan (y / x) + Real.pi else Real.arctan (y / x) - Real.pi)
  else
    (if 0 < y then Real.pi / 2 else if y < 0 then -(Real.pi / 2) else 0)

/-- The genuine `Math` operations over the reals. -/
noncomputable def realOps : MathOps ℝ :=
  ⟨Real.sin, Real.cos, Real.arcsin, Real.sqrt, jsAtan2, Real.pi, fun x => x ^ ((3 : ℝ) / 2)⟩

/-- A computable rational operation table (all transcendental primitives
collapsed to 0) used to evaluate the structural theorems on concrete
inputs. -/
def zeroOps : MathOps ℚ :=
  ⟨fun _ => 0, fun _ => 0, fun _ => 0, fun _ => 0, fun _ _ => 0, 3, fun _ => 0⟩

/-- A computable rational operation table with `sin ≡ 1`, `cos ≡ 0` and
identity `sqrt`, chosen so a strong current makes the solved sine of the
course correction angle exceed 1 on concrete inputs. -/
def driftOps : MathOps ℚ :=
  ⟨fun _ => 1, fun _ => 0, fun x => x, fun x => x, fun _ _ => 0, 3, fun x => x⟩

/-- The default ship of the application. -/
def shipQ : Ship ℚ := ⟨150, 25, 300⟩

/-- Environment with drift disabled. -/
def envOff : EnvironmentalFactors ℚ := ⟨false, ⟨0, 0⟩, ⟨0, 0⟩⟩

/-- Environment with drift enabled but no active forcing. -/
def envNoForce : EnvironmentalFactors ℚ := ⟨true, ⟨0, 0⟩, ⟨0, 0⟩⟩

/-- Environment with drift enabled and a strong current. -/
def envCurrent : EnvironmentalFactors ℚ := ⟨true, ⟨0, 0⟩, ⟨100, 0⟩⟩

/-- Two plain waypoints. -/
def wps2Q : List (Waypoint ℚ) :=
  [⟨⟨0, 0⟩, 1, none, none⟩, ⟨⟨0, 1 / 100⟩, 2, none, none⟩]

/-- Three plain waypoints, default speed and propulsion. -/
def wps3Q : List (Waypoint ℚ) :=
  [⟨⟨0, 0⟩, 1, none, none⟩, ⟨⟨0, 1⟩, 2, none, none⟩, ⟨⟨1, 1⟩, 3, none, none⟩]

/-- Three waypoints with an Astern propulsion change at the second one. -/
def wps3P : List (Waypoint ℚ) :=
  [⟨⟨0, 0⟩, 1, none, none⟩,
   ⟨⟨0, 1⟩, 2, none, some PropulsionDirection.ASTERN⟩,
   ⟨⟨0, 2⟩, 3, none, none⟩]

/-- Two waypoints with an explicit zero leg speed at the first. -/
def wpsSpeed0 : List (Waypoint ℚ) :=
  [⟨⟨0, 0⟩, 1, some 0, none⟩, ⟨⟨0, 1⟩, 2, none, none⟩]

/-- Real ship and environment fixtures. -/
def shipR : Ship ℝ := ⟨150, 25, 300⟩

/-- Drift-off real environment. -/
def envOffR : EnvironmentalFactors ℝ := ⟨false, ⟨0, 0⟩, ⟨0, 0⟩⟩

/-- Waypoints going east, then west, then east again on the equator: the
real bearings of the two legs are exactly 270 and 90, so the course
difference is exactly −180. -/
def wpsRev : List (Waypoint ℝ) :=
  [⟨⟨0, 1⟩, 1, none, none⟩, ⟨⟨0, 0⟩, 2, none, none⟩, ⟨⟨0, 1⟩, 3, none, none⟩]

/-- A concrete first leg for playback: 4 seconds of motion, no pivot. -/
def legA : TrajectoryLeg ℚ :=
  ⟨1, default, default, 0, 0, 0, 0, 90, NavigationCommand.START, 0, false, 5, 4, 0,
   PropulsionDirection.FORWARD, none, none, none, none⟩

/-- A concrete second leg for playback: 10 of its 20 seconds are pivot. -/
def legB : TrajectoryLeg ℚ :=
  ⟨2, default, default, 0, 0, 0, 100, 100, NavigationCommand.STRAIGHT, 0, false, 5, 20, 10,
   PropulsionDirection.FORWARD, none, none, none, none⟩

/-- A concrete terminal END entry for playback. -/
def legT : TrajectoryLeg ℚ :=
  ⟨3, default, default, 0, 0, 0, 100, 100, NavigationCommand.END, 0, false, 0, 0, 0,
   PropulsionDirection.FORWARD, none, none, none, none⟩

/-- A concrete three-entry leg sequence for playback witnesses. -/
def demoLegs : List (TrajectoryLeg ℚ) := [legA, legB, legT]

theorem buildLeg_fst_course (ops : MathOps α) (wps : List (Waypoint α)) (ship : Ship α)
    (pd : α) (env : EnvironmentalFactors α) (i : ℕ) (pc : Option α) (pos : GeoPoint α) :
    (buildLeg ops wps ship pd env i pc pos).1.course = legCourse ops wps i := rfl

theorem buildLeg_fst_pivotTime (ops : MathOps α) (wps : List (Waypoint α)) (ship : Ship α)
    (pd : α) (env : EnvironmentalFactors α) (i : ℕ) (pc : Option α) (pos : GeoPoint α) :
    (buildLeg ops wps ship pd env i pc pos).1.pivotTime = pivotTimeOf wps pd i := rfl

theorem buildLeg_fst_propulsion (ops : MathOps α) (wps : List (Waypoint α)) (ship : Ship α)
    (pd : α) (env : EnvironmentalFactors α) (i : ℕ) (pc : Option α) (pos : GeoPoint α) :
    (buildLeg ops wps ship pd env i pc pos).1.propulsion = propulsionOf wps i := rfl

theorem buildLeg_fst_start (ops : MathOps α) (wps : List (Waypoint α)) (ship : Ship α)
    (pd : α) (env : EnvironmentalFactors α) (i : ℕ) (pc : Option α) (pos : GeoPoint α) :
    (buildLeg ops wps ship pd env i pc pos).1.start = wps.getD i default := rfl

theorem buildLeg_fst_endWp (ops : MathOps α) (wps : List (Waypoint α)) (ship : Ship α)
    (pd : α) (env : EnvironmentalFactors α) (i : ℕ) (pc : Option α) (pos : GeoPoint α) :
    (buildLeg ops wps ship pd env i pc pos).1.endWp = wps.getD (i + 1) default := rfl

theorem buildLeg_fst_speed (ops : MathOps α) (wps : List (Waypoint α)) (ship : Ship α)
    (pd : α) (env : EnvironmentalFactors α) (i : ℕ) (pc : Option α) (pos : GeoPoint α) :
    (buildLeg ops wps ship pd env i pc pos).1.speed = speedKnotsOf wps i := rfl

theorem buildLeg_fst_time (ops : MathOps α) (wps : List (Waypoint α)) (ship : Ship α)
    (pd : α) (env : EnvironmentalFactors α) (i : ℕ) (pc : Option α) (pos : GeoPoint α) :
    (buildLeg ops wps ship pd env i pc pos).1.time =
      moveTimeOf ops wps pd i + pivotTimeOf wps pd i := rfl

theorem buildLeg_fst_turnAngle (ops : MathOps α) (wps : List (Waypoint α)) (ship : Ship α)
    (pd : α) (env : EnvironmentalFactors α) (i : ℕ) (pc : Option α) (pos : GeoPoint α) :
    (buildLeg ops wps ship pd env i pc pos).1.turnAngle =
      turnAngleOf (legCourse ops wps i) pc i := rfl

theorem buildLeg_fst_command (ops : MathOps α) (wps : List (Waypoint α)) (ship : Ship α)
    (pd : α) (env : EnvironmentalFactors α) (i : ℕ) (pc : Option α) (pos : GeoPoint α) :
    (buildLeg ops wps ship pd env i pc pos).1.command =
      commandOf (legCourse ops wps i) pc i := rfl

theorem buildLeg_fst_startHeading (ops : MathOps α) (wps : List (Waypoint α)) (ship : Ship α)
    (pd : α) (env : EnvironmentalFactors α) (i : ℕ) (pc : Option α) (pos : GeoPoint α) :
    (buildLeg ops wps ship pd env i pc pos).1.startHeading = startHeadingOf ops wps pd i := rfl

theorem buildLeg_fst_endHeading (ops : MathOps α) (wps : List (Waypoint α)) (ship : Ship α)
    (pd : α) (env : EnvironmentalFactors α) (i : ℕ) (pc : Option α) (pos : GeoPoint α) :
    (buildLeg ops wps ship pd env i pc pos).1.endHeading = endHeadingOf ops wps pd i := rfl

theorem buildLeg_fst_cca (ops : MathOps α) (wps : List (Waypoint α)) (ship : Ship α)
    (pd : α) (env : EnvironmentalFactors α) (i : ℕ) (pc : Option α) (pos : GeoPoint α) :
    (buildLeg ops wps ship pd env i pc pos).1.courseCorrectionAngle =
      (if env.driftEnabled then
        (driftFields ops env (legCourse ops wps i) (speedMpsOf wps i)
          (moveTimeOf ops wps pd i) (wps.getD i default).toGeoPoint
          (wps.getD (i + 1) default).toGeoPoint pos).courseCorrectionAngle
      else none) := by
  cases hd : env.driftEnabled <;> simp [buildLeg, hd]

theorem buildLeg_fst_predictedEnd (ops : MathOps α) (wps : List (Waypoint α)) (ship : Ship α)
    (pd : α) (env : EnvironmentalFactors α) (i : ℕ) (pc : Option α) (pos : GeoPoint α) :
    (buildLeg ops wps ship pd env i pc pos).1.predictedEnd =
      (if env.driftEnabled then
        (driftFields ops env (legCourse ops wps i) (speedMpsOf wps i)
          (moveTimeOf ops wps pd i) (wps.getD i default).toGeoPoint
          (wps.getD (i + 1) default).toGeoPoint pos).predictedEnd
      else none) := by
  cases hd : env.driftEnabled <;> simp [buildLeg, hd]

theorem buildLeg_snd (ops : MathOps α) (wps : List (Waypoint α)) (ship : Ship α)
    (pd : α) (env : EnvironmentalFactors α) (i : ℕ) (pc : Option α) (pos : GeoPoint α) :
    (buildLeg ops wps ship pd env i pc pos).2 =
      (if env.driftEnabled then
        (match (driftFields ops env (legCourse ops wps i) (speedMpsOf wps i)
            (moveTimeOf ops wps pd i) (wps.getD i default).toGeoPoint
            (wps.getD (i + 1) default).toGeoPoint pos).predictedEnd with
         | some pe => pe
         | none => pos)
      else pos) := by
  cases hd : env.driftEnabled <;> simp [buildLeg, hd]

theorem driftFields_cca (ops : MathOps α) (env : EnvironmentalFactors α)
    (c s m : α) (sp ep pos : GeoPoint α) :
    (driftFields ops env c s m sp ep pos).courseCorrectionAngle =
      (if 0 < env.current.speed ∨ 0 < env.wind.speed then ccaOf ops env c s else none) := by
  by_cases h : 0 < env.current.speed ∨ 0 < env.wind.speed <;> simp [driftFields, h]

theorem driftFields_predictedEnd_noforce (ops : MathOps α) (env : EnvironmentalFactors α)
    (c s m : α) (sp ep pos : GeoPoint α)
    (h : ¬ (0 < env.current.speed ∨ 0 < env.wind.speed)) :
    (driftFields ops env c s m sp ep pos).predictedEnd =
      some ⟨pos.lat + (ep.lat - sp.lat), pos.lng + (ep.lng - sp.lng)⟩ := by
  simp [driftFields, h]

theorem calcLegs_length (ops : MathOps α) (wps : List (Waypoint α)) (ship : Ship α)
    (pd : α) (env : EnvironmentalFactors α) :
    ∀ (k i : ℕ) (pc : Option α) (pos : GeoPoint α),
      (calcLegs ops wps ship pd env k i pc pos).length = k := by
  intro k
  induction k with
  | zero => intro i pc pos; rfl
  | succ k ih =>
    intro i pc pos
    simp only [calcLegs, List.length_cons]
    rw [ih]

theorem calcLegs_getD (ops : MathOps α) (wps : List (Waypoint α)) (ship : Ship α)
    (pd : α) (env : EnvironmentalFactors α) :
    ∀ (k i : ℕ) (pc : Option α) (pos : GeoPoint α) (j : ℕ), j < k →
      ∃ pos2, (calcLegs ops wps ship pd env k i pc pos).getD j default =
        (buildLeg ops wps ship pd env (i + j)
          (if j = 0 then pc else some (legCourse ops wps (i + j - 1))) pos2).1 := by
  intro k
  induction k with
  | zero => intro i pc pos j hj; exact absurd hj (Nat.not_lt_zero j)
  | succ k ih =>
    intro i pc pos j hj
    cases j with
    | zero =>
      refine ⟨pos, ?_⟩
      simp [calcLegs]
    | succ n =>
      have hn : n < k := by omega
      obtain ⟨pos2, h⟩ := ih (i + 1)
        (some (buildLeg ops wps ship pd env i pc pos).1.course)
        ((buildLeg ops wps ship pd env i pc pos).2) n hn
      refine ⟨pos2, ?_⟩
      have hpc : (if n = 0 then some ((buildLeg ops wps ship pd env i pc pos).1.course)
          else some (legCourse ops wps (i + 1 + n - 1))) =
          some (legCourse ops wps (i + (n + 1) - 1)) := by
        cases n with
        | zero => simp [buildLeg_fst_course]
        | succ m =>
          have : i + 1 + (m + 1) - 1 = i + (m + 1 + 1) - 1 := by omega
          simp [this]
      rw [hpc] at h
      have hidx : i + 1 + n = i + (n + 1) := by omega
      rw [hidx] at h
      simpa [calcLegs] using h

theorem calculateTrajectory_getD (ops : MathOps α) (wps : List (Waypoint α)) (ship : Ship α)
    (pd : α) (env : EnvironmentalFactors α) (j : ℕ)
    (h2 : 2 ≤ wps.length) (hj : j < wps.length - 1) :
    ∃ pos2, (calculateTrajectory ops wps ship pd env).getD j default =
      (buildLeg ops wps ship pd env j
        (if j = 0 then none else some (legCourse ops wps (j - 1))) pos2).1 := by
  obtain ⟨pos2, h⟩ := calcLegs_getD ops wps ship pd env (wps.length - 1) 0 none
    (wps.getD 0 default).toGeoPoint j hj
  refine ⟨pos2, ?_⟩
  unfold calculateTrajectory
  rw [if_neg (by omega), if_pos (by omega)]
  rw [List.getD_append _ _ _ _ (by rw [calcLegs_length]; exact hj)]
  simpa using h

theorem calculateTrajectory_length (ops : MathOps α) (wps : List (Waypoint α)) (ship : Ship α)
    (pd : α) (env : EnvironmentalFactors α) (h2 : 2 ≤ wps.length) :
    (calculateTrajectory ops wps ship pd env).length = wps.length := by
  unfold calculateTrajectory
  rw [if_neg (by omega), if_pos (by omega)]
  rw [List.length_append, calcLegs_length]
  simp
  omega

theorem calculateTrajectory_getLast (ops : MathOps α) (wps : List (Waypoint α)) (ship : Ship α)
    (pd : α) (env : EnvironmentalFactors α) (h2 : 2 ≤ wps.length) :
    (calculateTrajectory ops wps ship pd env).getLast? =
      some (terminalLeg (wps.getD (wps.length - 1) default)
        (calcLegs ops wps ship pd env (wps.length - 1) 0 none
          (wps.getD 0 default).toGeoPoint).getLast?) := by
  unfold calculateTrajectory
  rw [if_neg (by omega), if_pos (by omega)]
  exact List.getLast?_concat _

theorem getDistance_zeroOps (p q : GeoPoint ℚ) : getDistance zeroOps p q = 0 := by
  simp [getDistance, zeroOps]

theorem curveLength_foldl_zero (p0 p1 p2 p3 : GeoPoint ℚ) :
    ∀ (ts : List ℚ) (acc : ℚ × GeoPoint ℚ),
      (ts.foldl (fun (acc : ℚ × GeoPoint ℚ) t =>
        let currentPoint := getPointOnCatmullRom t p0 p1 p2 p3
        (acc.1 + getDistance zeroOps acc.2 currentPoint, currentPoint)) acc).1 = acc.1 := by
  intro ts
  induction ts with
  | nil => intro acc; rfl
  | cons t ts ih =>
    intro acc
    simp only [List.foldl_cons]
    rw [ih]
    simp [getDistance_zeroOps]

theorem curveLength_zeroOps (p0 p1 p2 p3 : GeoPoint ℚ) (n : ℕ) :
    calculateCurveLength zeroOps p0 p1 p2 p3 n = 0 := by
  unfold calculateCurveLength
  rw [curveLength_foldl_zero]

theorem moveTimeOf_zeroOps (wps : List (Waypoint ℚ)) (pd : ℚ) (i : ℕ) :
    moveTimeOf zeroOps wps pd i = 0 := by
  unfold moveTimeOf curveDistanceOf
  rw [curveLength_zeroOps]
  split <;> simp

theorem getBearing_zeroOps (p q : GeoPoint ℚ) (h : ¬ (p.lat = q.lat ∧ p.lng = q.lng)) :
    getBearing zeroOps p q = 0 := by
  unfold getBearing jsMod rtrunc
  rw [if_neg h]
  norm_num [zeroOps]

omit [FloorRing α] in
/-- C6: for all control points, the Catmull-Rom curve evaluated per
coordinate axis equals `p1` at parameter 0 and `p2` at parameter 1. -/
theorem claim_C6 (p0 p1 p2 p3 : α) (q0 q1 q2 q3 : GeoPoint α) :
    catmullRomSpline 0 p0 p1 p2 p3 = p1 ∧
    catmullRomSpline 1 p0 p1 p2 p3 = p2 ∧
    getPointOnCatmullRom (0 : α) q0 q1 q2 q3 = q1 ∧
    getPointOnCatmullRom (1 : α) q0 q1 q2 q3 = q2 := by
  refine ⟨?_, ?_, ?_, ?_⟩
  · unfold catmullRomSpline; ring
  · unfold catmullRomSpline; ring
  · unfold getPointOnCatmullRom catmullRomSpline
    cases q1
    simp only [GeoPoint.mk.injEq]
    constructor <;> ring
  · unfold getPointOnCatmullRom catmullRomSpline
    cases q2
    simp only [GeoPoint.mk.injEq]
    constructor <;> ring

/-- C9: the haversine distance is symmetric and zero on coincident points,
and the bearing of a point to itself is the defined fallback 0. -/
theorem claim_C9 (a b : GeoPoint ℝ) :
    getDistance realOps a b = getDistance realOps b a ∧
    getDistance realOps a a = 0 ∧
    getBearing realOps a a = 0 := by
  refine ⟨?_, ?_, ?_⟩
  · unfold getDistance toRad
    have h1 : (a.lat - b.lat) * realOps.pi / 180 / 2 =
        -((b.lat - a.lat) * realOps.pi / 180 / 2) := by ring
    have h2 : (a.lng - b.lng) * realOps.pi / 180 / 2 =
        -((b.lng - a.lng) * realOps.pi / 180 / 2) := by ring
    simp only [realOps] at h1 h2 ⊢
    rw [h1, h2, Real.sin_neg, Real.sin_neg]
    ring_nf
  · unfold getDistance toRad
    simp only [sub_self, zero_mul, zero_div, realOps, Real.sin_zero, mul_zero, zero_add,
      add_zero, Real.sqrt_zero, sub_zero, Real.sqrt_one]
    have : jsAtan2 0 1 = 0 := by
      unfold jsAtan2
      norm_num [Real.arctan_zero]
    rw [this]
    ring
  · unfold getBearing
    simp

/-- C1: fewer than 2 waypoints gives the empty list; N ≥ 2 waypoints give
exactly N legs — N−1 adjacent-pair legs in order, then one terminal END
leg with zero distance, curve distance, time and pivot time whose start
and end are the last waypoint. -/
theorem claim_C1 (ops : MathOps α) (wps : List (Waypoint α)) (ship : Ship α)
    (pd : α) (env : EnvironmentalFactors α) :
    (wps.length < 2 → calculateTrajectory ops wps ship pd env = []) ∧
    (2 ≤ wps.length →
      (calculateTrajectory ops wps ship pd env).length = wps.length ∧
      (∀ j, j < wps.length - 1 →
        ((calculateTrajectory ops wps ship pd env).getD j default).start = wps.getD j default ∧
        ((calculateTrajectory ops wps ship pd env).getD j default).endWp =
          wps.getD (j + 1) default) ∧
      ((calculateTrajectory ops wps ship pd env).getLast?.map TrajectoryLeg.command =
          some NavigationCommand.END ∧
       (calculateTrajectory ops wps ship pd env).getLast?.map TrajectoryLeg.distance = some 0 ∧
       (calculateTrajectory ops wps ship pd env).getLast?.map TrajectoryLeg.curveDistance =
          some 0 ∧
       (calculateTrajectory ops wps ship pd env).getLast?.map TrajectoryLeg.time = some 0 ∧
       (calculateTrajectory ops wps ship pd env).getLast?.map TrajectoryLeg.pivotTime = some 0 ∧
       (calculateTrajectory ops wps ship pd env).getLast?.map TrajectoryLeg.start =
          some (wps.getD (wps.length - 1) default) ∧
       (calculateTrajectory ops wps ship pd env).getLast?.map TrajectoryLeg.endWp =
          some (wps.getD (wps.length - 1) default))) := by
  constructor
  · intro h
    unfold calculateTrajectory
    rw [if_pos h]
  · intro h2
    refine ⟨calculateTrajectory_length ops wps ship pd env h2, ?_, ?_⟩
    · intro j hj
      obtain ⟨pos2, h⟩ := calculateTrajectory_getD ops wps ship pd env j h2 hj
      rw [h, buildLeg_fst_start, buildLeg_fst_endWp]
      exact ⟨rfl, rfl⟩
    · rw [calculateTrajectory_getLast ops wps ship pd env h2]
      exact ⟨rfl, rfl, rfl, rfl, rfl, rfl, rfl⟩

/-- Witness for C1 at a concrete two-waypoint plan. -/
theorem claim_C1_witness :
    (calculateTrajectory zeroOps wps2Q shipQ 10 envOff).length = 2 ∧
    ((calculateTrajectory zeroOps wps2Q shipQ 10 envOff).getD 0 default).start =
      wps2Q.getD 0 default ∧
    ((calculateTrajectory zeroOps wps2Q shipQ 10 envOff).getD 0 default).endWp =
      wps2Q.getD 1 default ∧
    (calculateTrajectory zeroOps wps2Q shipQ 10 envOff).getLast?.map TrajectoryLeg.command =
      some NavigationCommand.END ∧
    (calculateTrajectory zeroOps wps2Q shipQ 10 envOff).getLast?.map TrajectoryLeg.time =
      some 0 := by
  obtain ⟨hlen, hj, hcmd, _, _, htime, _⟩ := (claim_C1 zeroOps wps2Q shipQ 10 envOff).2 (by decide)
  exact ⟨hlen, (hj 0 (by decide)).1, (hj 0 (by decide)).2, hcmd, htime⟩

/-- Counterexample to C2 as stated: with configured pivot duration 0 and a
propulsion change at the second waypoint, the second leg's propulsion
differs from the first leg's but its pivotTime is 0, not positive — the
claimed equivalence fails for non-positive pivot durations. -/
theorem claim_C2_counterexample :
    ¬ (0 < ((calculateTrajectory zeroOps wps3P shipQ 0 envOff).getD 1 default).pivotTime ↔
       ((calculateTrajectory zeroOps wps3P shipQ 0 envOff).getD 1 default).propulsion ≠
       ((calculateTrajectory zeroOps wps3P shipQ 0 envOff).getD 0 default).propulsion) := by
  decide

/-- C2 (amended): the first leg's pivotTime is always 0; a later leg's
pivotTime equals the configured duration exactly when its propulsion
differs from the previous leg's (and 0 otherwise); hence for every
positive configured pivot duration, pivotTime > 0 iff the propulsion
differs from the immediately preceding leg's. -/
theorem claim_C2 (ops : MathOps α) (wps : List (Waypoint α)) (ship : Ship α)
    (pd : α) (env : EnvironmentalFactors α) (i : ℕ) :
    (2 ≤ wps.length →
      ((calculateTrajectory ops wps ship pd env).getD 0 default).pivotTime = 0) ∧
    (1 ≤ i → i < wps.length - 1 →
      ((calculateTrajectory ops wps ship pd env).getD i default).propulsion =
        propulsionOf wps i ∧
      ((calculateTrajectory ops wps ship pd env).getD i default).pivotTime =
        (if propulsionOf wps i ≠ propulsionOf wps (i - 1) then pd else 0) ∧
      (0 < pd →
        (0 < ((calculateTrajectory ops wps ship pd env).getD i default).pivotTime ↔
         ((calculateTrajectory ops wps ship pd env).getD i default).propulsion ≠
         ((calculateTrajectory ops wps ship pd env).getD (i - 1) default).propulsion))) := by
  constructor
  · intro h2
    obtain ⟨pos2, h⟩ := calculateTrajectory_getD ops wps ship pd env 0 h2 (by omega)
    rw [h, buildLeg_fst_pivotTime]
    simp [pivotTimeOf]
  · intro h1 hi
    have h2 : 2 ≤ wps.length := by omega
    obtain ⟨pos2, h⟩ := calculateTrajectory_getD ops wps ship pd env i h2 hi
    obtain ⟨pos3, h3⟩ := calculateTrajectory_getD ops wps ship pd env (i - 1) h2 (by omega)
    rw [h, h3, buildLeg_fst_propulsion, buildLeg_fst_propulsion, buildLeg_fst_pivotTime]
    have hpt : pivotTimeOf wps pd i =
        (if propulsionOf wps i ≠ propulsionOf wps (i - 1) then pd else 0) := by
      unfold pivotTimeOf prevPropulsionOf
      rw [if_neg (by omega : ¬ i = 0)]
      by_cases hp : propulsionOf wps i = propulsionOf wps (i - 1)
      · rw [if_neg (by simp [hp]), if_neg (by simp [hp])]
      · rw [if_pos ⟨by omega, hp⟩, if_pos hp]
    refine ⟨rfl, hpt, ?_⟩
    intro hpd
    rw [hpt]
    by_cases hp : propulsionOf wps i = propulsionOf wps (i - 1)
    · rw [if_neg (by simp [hp])]
      simp [hp]
    · rw [if_pos hp]
      simp [hp, hpd]

/-- Witness for the amended C2 at a concrete propulsion-change plan. -/
theorem claim_C2_witness :
    ((calculateTrajectory zeroOps wps3P shipQ 10 envOff).getD 1 default).pivotTime = 10 ∧
    (0 < ((calculateTrajectory zeroOps wps3P shipQ 10 envOff).getD 1 default).pivotTime ↔
     ((calculateTrajectory zeroOps wps3P shipQ 10 envOff).getD 1 default).propulsion ≠
     ((calculateTrajectory zeroOps wps3P shipQ 10 envOff).getD 0 default).propulsion) ∧
    ((calculateTrajectory zeroOps wps3P shipQ 10 envOff).getD 0 default).pivotTime = 0 := by
  obtain ⟨h0, hrest⟩ := claim_C2 zeroOps wps3P shipQ 10 envOff 1
  obtain ⟨hprop, hpt, hiff⟩ := hrest (by decide) (by decide)
  refine ⟨?_, hiff (by decide), h0 (by decide)⟩
  rw [hpt]
  decide

theorem buildLeg_fst_violation (ops : MathOps α) (wps : List (Waypoint α)) (ship : Ship α)
    (pd : α) (env : EnvironmentalFactors α) (i : ℕ) (pc : Option α) (pos : GeoPoint α) :
    (buildLeg ops wps ship pd env i pc pos).1.turnRadiusViolation =
      (if (commandOf (legCourse ops wps i) pc i = NavigationCommand.PORT ∨
           commandOf (legCourse ops wps i) pc i = NavigationCommand.STARBOARD) ∧
          pivotTimeOf wps pd i = 0 then
        (match calculateTurnRadius ops (legControlPoints wps pd i).1
            (legControlPoints wps pd i).2.1 (legControlPoints wps pd i).2.2.1
            (legControlPoints wps pd i).2.2.2 with
         | none => false
         | some r => decide (r < ship.turningRadius))
      else false) := rfl

/-- C7: a leg whose speed is 0 has moveTime 0, so its time equals its
pivotTime (no division by zero); and whenever the curvature denominator of
a leg's control points is below 1e-6 the computed turn radius is infinite
(`none`) and the leg's turnRadiusViolation is false, for any ship with
positive turning radius. -/
theorem claim_C7 (ops : MathOps α) (wps : List (Waypoint α)) (ship : Ship α)
    (pd : α) (env : EnvironmentalFactors α) (i : ℕ)
    (hship : 0 < ship.turningRadius) :
    (i < wps.length - 1 →
      ((calculateTrajectory ops wps ship pd env).getD i default).speed = 0 →
      ((calculateTrajectory ops wps ship pd env).getD i default).time =
        ((calculateTrajectory ops wps ship pd env).getD i default).pivotTime) ∧
    (turnRadiusDenominator ops (legControlPoints wps pd i).1 (legControlPoints wps pd i).2.1
        (legControlPoints wps pd i).2.2.1 (legControlPoints wps pd i).2.2.2 < 1 / 1000000 →
      calculateTurnRadius ops (legControlPoints wps pd i).1 (legControlPoints wps pd i).2.1
        (legControlPoints wps pd i).2.2.1 (legControlPoints wps pd i).2.2.2 = none ∧
      (i < wps.length - 1 →
        ((calculateTrajectory ops wps ship pd env).getD i default).turnRadiusViolation =
          false)) := by
  constructor
  · intro hi hspeed
    have h2 : 2 ≤ wps.length := by omega
    obtain ⟨pos2, h⟩ := calculateTrajectory_getD ops wps ship pd env i h2 hi
    rw [h, buildLeg_fst_speed] at hspeed
    rw [h, buildLeg_fst_time, buildLeg_fst_pivotTime]
    have hmps : speedMpsOf wps i = 0 := by
      unfold speedMpsOf
      rw [hspeed, zero_mul]
    unfold moveTimeOf
    rw [hmps]
    simp
  · intro hden
    have hrad : calculateTurnRadius ops (legControlPoints wps pd i).1
        (legControlPoints wps pd i).2.1 (legControlPoints wps pd i).2.2.1
        (legControlPoints wps pd i).2.2.2 = none := by
      unfold calculateTurnRadius
      simp only [if_pos hden]
    refine ⟨hrad, ?_⟩
    intro hi
    have h2 : 2 ≤ wps.length := by omega
    obtain ⟨pos2, h⟩ := calculateTrajectory_getD ops wps ship pd env i h2 hi
    rw [h, buildLeg_fst_violation, hrad]
    simp

/-- Witness for C7: a first leg with explicit zero speed whose control
points are degenerate enough to drive the curvature denominator to 0. -/
theorem claim_C7_witness :
    ((calculateTrajectory zeroOps wpsSpeed0 shipQ 10 envOff).getD 0 default).time =
      ((calculateTrajectory zeroOps wpsSpeed0 shipQ 10 envOff).getD 0 default).pivotTime ∧
    calculateTurnRadius zeroOps (legControlPoints wpsSpeed0 (10 : ℚ) 0).1
      (legControlPoints wpsSpeed0 (10 : ℚ) 0).2.1 (legControlPoints wpsSpeed0 (10 : ℚ) 0).2.2.1
      (legControlPoints wpsSpeed0 (10 : ℚ) 0).2.2.2 = none ∧
    ((calculateTrajectory zeroOps wpsSpeed0 shipQ 10 envOff).getD 0 default).turnRadiusViolation =
      false := by
  have hden : turnRadiusDenominator zeroOps (legControlPoints wpsSpeed0 (10 : ℚ) 0).1
      (legControlPoints wpsSpeed0 (10 : ℚ) 0).2.1 (legControlPoints wpsSpeed0 (10 : ℚ) 0).2.2.1
      (legControlPoints wpsSpeed0 (10 : ℚ) 0).2.2.2 < 1 / 1000000 := by
    norm_num [turnRadiusDenominator, legControlPoints, pivotTimeOf, propulsionOf,
      prevPropulsionOf, wpsSpeed0, zeroOps, toRad]
  obtain ⟨htime, hpart2⟩ := claim_C7 zeroOps wpsSpeed0 shipQ 10 envOff 0 (by decide)
  obtain ⟨hrad, hviol⟩ := hpart2 hden
  exact ⟨htime (by decide) (by decide), hrad, hviol (by decide)⟩

theorem buildLeg_fst_sog (ops : MathOps α) (wps : List (Waypoint α)) (ship : Ship α)
    (pd : α) (env : EnvironmentalFactors α) (i : ℕ) (pc : Option α) (pos : GeoPoint α) :
    (buildLeg ops wps ship pd env i pc pos).1.sog =
      (if env.driftEnabled then
        (driftFields ops env (legCourse ops wps i) (speedMpsOf wps i)
          (moveTimeOf ops wps pd i) (wps.getD i default).toGeoPoint
          (wps.getD (i + 1) default).toGeoPoint pos).sog
      else none) := by
  cases hd : env.driftEnabled <;> simp [buildLeg, hd]

theorem buildLeg_fst_cogCourse (ops : MathOps α) (wps : List (Waypoint α)) (ship : Ship α)
    (pd : α) (env : EnvironmentalFactors α) (i : ℕ) (pc : Option α) (pos : GeoPoint α) :
    (buildLeg ops wps ship pd env i pc pos).1.cogCourse =
      (if env.driftEnabled then
        (driftFields ops env (legCourse ops wps i) (speedMpsOf wps i)
          (moveTimeOf ops wps pd i) (wps.getD i default).toGeoPoint
          (wps.getD (i + 1) default).toGeoPoint pos).cogCourse
      else none) := by
  cases hd : env.driftEnabled <;> simp [buildLeg, hd]

/-- C4: when drift is enabled with some forcing active and the ship has
positive speed, a solved sine of the course correction angle with absolute
value above 1 makes the leg's courseCorrectionAngle the NaN sentinel (no
error is thrown); and the interpolator's correction treats an absent or
NaN courseCorrectionAngle as a zero correction in the move-phase
heading. -/
theorem claim_C4 (ops : MathOps α) (wps : List (Waypoint α)) (ship : Ship α)
    (pd : α) (env : EnvironmentalFactors α) (i : ℕ)
    (h1 : env.driftEnabled = true)
    (h2 : 0 < env.current.speed ∨ 0 < env.wind.speed)
    (hi : i < wps.length - 1)
    (hs : 0 < speedMpsOf wps i)
    (hsin : 1 < |sineOfCCA ops env (legCourse ops wps i) (speedMpsOf wps i)|) :
    ((calculateTrajectory ops wps ship pd env).getD i default).courseCorrectionAngle =
      some JsNum.nan ∧
    jsCorrection (some (JsNum.nan : JsNum α)) = 0 ∧
    jsCorrection (none : Option (JsNum α)) = 0 ∧
    (∀ (legs2 : List (TrajectoryLeg α)) (wps2 : List (Waypoint α))
        (ppp : List (GeoPoint α)) (j : ℕ) (t : α),
      ((legs2.getD j default).courseCorrectionAngle = some JsNum.nan ∨
       (legs2.getD j default).courseCorrectionAngle = none) →
      ¬ (t < (legs2.getD j default).pivotTime) →
      (legStateAt ops legs2 wps2 ppp j t).heading =
        jsMod (moveIntendedHeading ops wps2 j (legs2.getD j default)
          (moveLegProgress (legs2.getD j default) t) + 0 + 360) 360) := by
  refine ⟨?_, rfl, rfl, ?_⟩
  · have hlen : 2 ≤ wps.length := by omega
    obtain ⟨pos2, h⟩ := calculateTrajectory_getD ops wps ship pd env i hlen hi
    rw [h, buildLeg_fst_cca, h1, if_pos rfl, driftFields_cca, if_pos h2]
    unfold ccaOf
    rw [if_pos hs, if_neg (by rw [not_le]; exact hsin)]
  · intro legs2 wps2 ppp j t hcca hpiv
    unfold legStateAt
    rw [if_neg hpiv]
    rcases hcca with hc | hc <;> rw [hc] <;> rfl

/-- Witness for C4: a 100-knot current against a 5-knot ship with an
operation table making the solved sine exceed 1. -/
theorem claim_C4_witness :
    ((calculateTrajectory driftOps wps3Q shipQ 10 envCurrent).getD 0 default).courseCorrectionAngle =
      some JsNum.nan ∧
    jsCorrection (some (JsNum.nan : JsNum ℚ)) = 0 ∧
    jsCorrection (none : Option (JsNum ℚ)) = 0 := by
  have hs : 0 < speedMpsOf wps3Q 0 := by
    norm_num [speedMpsOf, speedKnotsOf, wps3Q]
  have hsin : 1 < |sineOfCCA driftOps envCurrent (legCourse driftOps wps3Q 0)
      (speedMpsOf wps3Q 0)| := by
    have : sineOfCCA driftOps envCurrent (legCourse driftOps wps3Q 0)
        (speedMpsOf wps3Q 0) = 128611 / 125 := by
      norm_num [sineOfCCA, totalDriftV, driftOps, envCurrent, speedMpsOf, speedKnotsOf, wps3Q]
    rw [this, abs_of_pos (by norm_num)]
    norm_num
  have h := claim_C4 driftOps wps3Q shipQ 10 envCurrent 0 (by decide)
    (Or.inl (by norm_num [envCurrent])) (by decide) hs hsin
  exact ⟨h.1, h.2.1, h.2.2.1⟩

/-- Componentwise advance by the delta between two geo points lands on the
second when starting from the first. -/
theorem geoAdvance_eq (p q : GeoPoint α) :
    (⟨p.lat + (q.lat - p.lat), p.lng + (q.lng - p.lng)⟩ : GeoPoint α) = q := by
  cases q
  simp only [GeoPoint.mk.injEq]
  constructor <;> ring

theorem calcLegs_predictedEnd_noforce (ops : MathOps α) (wps : List (Waypoint α))
    (ship : Ship α) (pd : α) (env : EnvironmentalFactors α)
    (h1 : env.driftEnabled = true) (h2 : env.wind.speed = 0) (h3 : env.current.speed = 0) :
    ∀ (k i : ℕ) (pc : Option α) (j : ℕ), j < k →
      ((calcLegs ops wps ship pd env k i pc (wps.getD i default).toGeoPoint).getD j
          default).predictedEnd = some (wps.getD (i + j + 1) default).toGeoPoint := by
  have hforce : ¬ (0 < env.current.speed ∨ 0 < env.wind.speed) := by
    rw [h2, h3]
    simp
  intro k
  induction k with
  | zero => intro i pc j hj; exact absurd hj (Nat.not_lt_zero j)
  | succ k ih =>
    intro i pc j hj
    have hpe : (buildLeg ops wps ship pd env i pc
        (wps.getD i default).toGeoPoint).1.predictedEnd =
        some (wps.getD (i + 1) default).toGeoPoint := by
      rw [buildLeg_fst_predictedEnd, h1, if_pos rfl,
        driftFields_predictedEnd_noforce ops env _ _ _ _ _ _ hforce]
      rw [geoAdvance_eq]
    cases j with
    | zero =>
      simpa [calcLegs] using hpe
    | succ n =>
      have hn : n < k := by omega
      have hpos : (buildLeg ops wps ship pd env i pc
          (wps.getD i default).toGeoPoint).2 = (wps.getD (i + 1) default).toGeoPoint := by
        rw [buildLeg_snd, h1, if_pos rfl]
        have : (driftFields ops env (legCourse ops wps i) (speedMpsOf wps i)
            (moveTimeOf ops wps pd i) (wps.getD i default).toGeoPoint
            (wps.getD (i + 1) default).toGeoPoint
            (wps.getD i default).toGeoPoint).predictedEnd =
            some (wps.getD (i + 1) default).toGeoPoint := by
          rw [driftFields_predictedEnd_noforce ops env _ _ _ _ _ _ hforce, geoAdvance_eq]
        rw [this]
      have := ih (i + 1) (some (buildLeg ops wps ship pd env i pc
        (wps.getD i default).toGeoPoint).1.course) n hn
      have hidx : i + 1 + n + 1 = i + (n + 1) + 1 := by omega
      rw [hidx] at this
      simp only [calcLegs, List.getD_cons_succ]
      rw [hpos]
      exact this

/-- C5: with drift enabled but zero wind and current speeds, every real
leg advances the running predicted position by exactly the intended leg's
lat/lng delta, so the predicted path coincides with the waypoint path. -/
theorem claim_C5 (ops : MathOps α) (wps : List (Waypoint α)) (ship : Ship α)
    (pd : α) (env : EnvironmentalFactors α)
    (h1 : env.driftEnabled = true) (h2 : env.wind.speed = 0) (h3 : env.current.speed = 0) :
    (∀ (i : ℕ) (pc : Option α) (pos : GeoPoint α),
      (buildLeg ops wps ship pd env i pc pos).1.predictedEnd =
        some ⟨pos.lat + ((wps.getD (i + 1) default).lat - (wps.getD i default).lat),
              pos.lng + ((wps.getD (i + 1) default).lng - (wps.getD i default).lng)⟩) ∧
    (∀ j, j < wps.length - 1 →
      ((calculateTrajectory ops wps ship pd env).getD j default).predictedEnd =
        some (wps.getD (j + 1) default).toGeoPoint) := by
  have hforce : ¬ (0 < env.current.speed ∨ 0 < env.wind.speed) := by
    rw [h2, h3]
    simp
  constructor
  · intro i pc pos
    rw [buildLeg_fst_predictedEnd, h1, if_pos rfl,
      driftFields_predictedEnd_noforce ops env _ _ _ _ _ _ hforce]
  · intro j hj
    have h2l : 2 ≤ wps.length := by omega
    unfold calculateTrajectory
    rw [if_neg (by omega), if_pos (by omega)]
    rw [List.getD_append _ _ _ _ (by rw [calcLegs_length]; exact hj)]
    have := calcLegs_predictedEnd_noforce ops wps ship pd env h1 h2 h3
      (wps.length - 1) 0 none j hj
    simpa using this

/-- Witness for C5 on a concrete three-waypoint plan with drift enabled
and no forcing. -/
theorem claim_C5_witness :
    ((calculateTrajectory zeroOps wps3Q shipQ 10 envNoForce).getD 0 default).predictedEnd =
      some (wps3Q.getD 1 default).toGeoPoint ∧
    ((calculateTrajectory zeroOps wps3Q shipQ 10 envNoForce).getD 1 default).predictedEnd =
      some (wps3Q.getD 2 default).toGeoPoint ∧
    (buildLeg zeroOps wps3Q shipQ 10 envNoForce 0 none ⟨5, 7⟩).1.predictedEnd =
      some ⟨5 + ((wps3Q.getD 1 default).lat - (wps3Q.getD 0 default).lat),
            7 + ((wps3Q.getD 1 default).lng - (wps3Q.getD 0 default).lng)⟩ := by
  obtain ⟨hone, hall⟩ := claim_C5 zeroOps wps3Q shipQ 10 envNoForce (by decide) rfl rfl
  exact ⟨hall 0 (by decide), hall 1 (by decide), hone 0 none ⟨5, 7⟩⟩

theorem buildLeg_stripDrift (ops : MathOps α) (wps : List (Waypoint α)) (ship : Ship α)
    (pd : α) (env env2 : EnvironmentalFactors α) (i : ℕ) (pc : Option α)
    (pos pos2 : GeoPoint α) :
    stripDrift (buildLeg ops wps ship pd env i pc pos).1 =
      stripDrift (buildLeg ops wps ship pd env2 i pc pos2).1 := by
  simp [buildLeg, stripDrift]

theorem calcLegs_stripDrift (ops : MathOps α) (wps : List (Waypoint α)) (ship : Ship α)
    (pd : α) (env env2 : EnvironmentalFactors α) :
    ∀ (k i : ℕ) (pc : Option α) (pos pos2 : GeoPoint α),
      (calcLegs ops wps ship pd env k i pc pos).map stripDrift =
        (calcLegs ops wps ship pd env2 k i pc pos2).map stripDrift := by
  intro k
  induction k with
  | zero => intro i pc pos pos2; rfl
  | succ k ih =>
    intro i pc pos pos2
    simp only [calcLegs, List.map_cons]
    rw [buildLeg_stripDrift ops wps ship pd env env2 i pc pos pos2,
      buildLeg_fst_course, buildLeg_fst_course]
    rw [ih (i + 1) (some (legCourse ops wps i))]

theorem calcLegs_driftNone (ops : MathOps α) (wps : List (Waypoint α)) (ship : Ship α)
    (pd : α) (env : EnvironmentalFactors α) (h : env.driftEnabled = false) :
    ∀ (k i : ℕ) (pc : Option α) (pos : GeoPoint α),
      ∀ l ∈ calcLegs ops wps ship pd env k i pc pos,
        l.sog = none ∧ l.cogCourse = none ∧ l.predictedEnd = none ∧
        l.courseCorrectionAngle = none := by
  intro k
  induction k with
  | zero => intro i pc pos l hl; exact absurd hl (List.not_mem_nil l)
  | succ k ih =>
    intro i pc pos l hl
    simp only [calcLegs, List.mem_cons] at hl
    rcases hl with hl | hl
    · subst hl
      refine ⟨?_, ?_, ?_, ?_⟩
      · rw [buildLeg_fst_sog, h]; rfl
      · rw [buildLeg_fst_cogCourse, h]; rfl
      · rw [buildLeg_fst_predictedEnd, h]; rfl
      · rw [buildLeg_fst_cca, h]; rfl
    · exact ih _ _ _ l hl

/-- C10: the environment argument influences only the four optional drift
fields — with drift disabled those fields are all absent, and stripping
them makes the output independent of the environment entirely. -/
theorem claim_C10 (ops : MathOps α) (wps : List (Waypoint α)) (ship : Ship α)
    (pd : α) (env env2 : EnvironmentalFactors α) (h : env.driftEnabled = false) :
    (calculateTrajectory ops wps ship pd env).map stripDrift =
      (calculateTrajectory ops wps ship pd env2).map stripDrift ∧
    (∀ l ∈ calculateTrajectory ops wps ship pd env,
      l.sog = none ∧ l.cogCourse = none ∧ l.predictedEnd = none ∧
      l.courseCorrectionAngle = none) := by
  constructor
  · unfold calculateTrajectory
    by_cases hlen : wps.length < 2
    · rw [if_pos hlen, if_pos hlen]
    · rw [if_neg hlen, if_neg hlen, if_pos (by omega), if_pos (by omega)]
      rw [List.map_append, List.map_append]
      have hmap := calcLegs_stripDrift ops wps ship pd env env2 (wps.length - 1) 0 none
        (wps.getD 0 default).toGeoPoint (wps.getD 0 default).toGeoPoint
      rw [hmap]
      have hlast : ((calcLegs ops wps ship pd env (wps.length - 1) 0 none
            (wps.getD 0 default).toGeoPoint).getLast?).map stripDrift =
          ((calcLegs ops wps ship pd env2 (wps.length - 1) 0 none
            (wps.getD 0 default).toGeoPoint).getLast?).map stripDrift := by
        rw [← List.getLast?_map, ← List.getLast?_map, hmap]
      congr 1
      cases hl1 : (calcLegs ops wps ship pd env (wps.length - 1) 0 none
          (wps.getD 0 default).toGeoPoint).getLast? with
      | none =>
        cases hl2 : (calcLegs ops wps ship pd env2 (wps.length - 1) 0 none
            (wps.getD 0 default).toGeoPoint).getLast? with
        | none => rfl
        | some b => rw [hl1, hl2] at hlast; exact absurd hlast (by simp)
      | some a =>
        cases hl2 : (calcLegs ops wps ship pd env2 (wps.length - 1) 0 none
            (wps.getD 0 default).toGeoPoint).getLast? with
        | none => rw [hl1, hl2] at hlast; exact absurd hlast (by simp)
        | some b =>
          rw [hl1, hl2] at hlast
          simp only [Option.map_some'] at hlast
          injection hlast with hab
          have hcourse : a.course = b.course := by
            simpa [stripDrift] using congrArg TrajectoryLeg.course hab
          have hend : a.endHeading = b.endHeading := by
            simpa [stripDrift] using congrArg TrajectoryLeg.endHeading hab
          have hprop : a.propulsion = b.propulsion := by
            simpa [stripDrift] using congrArg TrajectoryLeg.propulsion hab
          simp only [List.map_cons, List.map_nil, stripDrift, terminalLeg]
          rw [hcourse, hend, hprop]
  · intro l hl
    unfold calculateTrajectory at hl
    by_cases hlen : wps.length < 2
    · rw [if_pos hlen] at hl
      exact absurd hl (List.not_mem_nil l)
    · rw [if_neg hlen, if_pos (by omega)] at hl
      rcases List.mem_append.mp hl with hl | hl
      · exact calcLegs_driftNone ops wps ship pd env h _ _ _ _ l hl
      · have : l = terminalLeg (wps.getD (wps.length - 1) default)
            ((calcLegs ops wps ship pd env (wps.length - 1) 0 none
              (wps.getD 0 default).toGeoPoint).getLast?) := by
          simpa using hl
        subst this
        exact ⟨rfl, rfl, rfl, rfl⟩

/-- Witness for C10 at a concrete plan: drift-off output strip-equals the
output under a different environment, and the drift fields are absent. -/
theorem claim_C10_witness :
    (calculateTrajectory zeroOps wps3Q shipQ 10 envOff).map stripDrift =
      (calculateTrajectory zeroOps wps3Q shipQ 10 envNoForce).map stripDrift ∧
    ((calculateTrajectory zeroOps wps3Q shipQ 10 envOff).getD 0 default).sog = none ∧
    ((calculateTrajectory zeroOps wps3Q shipQ 10 envOff).getD 0 default).predictedEnd =
      none := by
  have h := claim_C10 zeroOps wps3Q shipQ 10 envOff envNoForce (by decide)
  refine ⟨h.1, ?_, ?_⟩ <;>
  · cases hL : calculateTrajectory zeroOps wps3Q shipQ 10 envOff with
    | nil =>
      have := calculateTrajectory_length zeroOps wps3Q shipQ 10 envOff (by decide)
      rw [hL] at this
      simp [wps3Q] at this
    | cons a t =>
      have hmem : a ∈ calculateTrajectory zeroOps wps3Q shipQ 10 envOff := by
        rw [hL]; exact List.mem_cons_self a t
      have hprops := h.2 a hmem
      simp only [hL, List.getD_cons_zero]
      first
      | exact hprops.1
      | exact hprops.2.2.1

theorem sin_pi_div_180_pos : 0 < Real.sin (Real.pi / 180) :=
  Real.sin_pos_of_pos_of_lt_pi (by positivity) (div_lt_self Real.pi_pos (by norm_num))

theorem bearing_east90 : getBearing realOps ⟨(0 : ℝ), 0⟩ ⟨0, 1⟩ = 90 := by
  have hpi := Real.pi_ne_zero
  unfold getBearing
  rw [if_neg (by norm_num)]
  simp only [realOps, toRad]
  norm_num [Real.sin_zero, Real.cos_zero, Real.sin_neg]
  have hat : jsAtan2 (Real.sin (Real.pi / 180)) 0 = Real.pi / 2 := by
    unfold jsAtan2
    rw [if_neg (by norm_num), if_neg (by norm_num), if_pos sin_pi_div_180_pos]
  rw [hat]
  have harg : Real.pi / 2 * 180 / Real.pi + 360 = 450 := by
    field_simp
    ring
  rw [harg]
  unfold jsMod rtrunc
  have hq : (450 : ℝ) / 360 = 5 / 4 := by norm_num
  rw [hq, if_pos (by norm_num)]
  have hf : ⌊(5 / 4 : ℝ)⌋ = 1 := by
    rw [Int.floor_eq_iff]
    norm_num
  rw [hf]
  norm_num

theorem bearing_west270 : getBearing realOps ⟨(0 : ℝ), 1⟩ ⟨0, 0⟩ = 270 := by
  have hpi := Real.pi_ne_zero
  unfold getBearing
  rw [if_neg (by norm_num)]
  simp only [realOps, toRad]
  norm_num [Real.sin_zero, Real.cos_zero, Real.sin_neg]
  have hat : jsAtan2 (-Real.sin (Real.pi / 180)) 0 = -(Real.pi / 2) := by
    unfold jsAtan2
    rw [if_neg (by norm_num), if_neg (by norm_num),
      if_neg (by simp [sin_pi_div_180_pos.le]),
      if_pos (by simpa using sin_pi_div_180_pos)]
  rw [hat]
  have harg : -(Real.pi / 2) * 180 / Real.pi + 360 = 270 := by
    field_simp
    ring
  rw [harg]
  unfold jsMod rtrunc
  have hq : (270 : ℝ) / 360 = 3 / 4 := by norm_num
  rw [hq, if_pos (by norm_num)]
  have hf : ⌊(3 / 4 : ℝ)⌋ = 0 := by
    rw [Int.floor_eq_iff]
    norm_num
  rw [hf]
  norm_num

/-- Counterexample to C3 as stated: with real trigonometry, reversing
course on the equator (east, then west) makes the course difference
exactly −180; the code leaves the turn angle at −180, but normalizing
into the claimed half-open interval `(−180, 180]` would give +180.  The
second leg's turn angle therefore differs from the claimed value. -/
theorem claim_C3_counterexample :
    ((calculateTrajectory realOps wpsRev shipR 30 envOffR).getD 1 default).turnAngle ≠
      specNormalize180
        (((calculateTrajectory realOps wpsRev shipR 30 envOffR).getD 1 default).course -
         ((calculateTrajectory realOps wpsRev shipR 30 envOffR).getD 0 default).course) := by
  obtain ⟨p1, h1⟩ := calculateTrajectory_getD realOps wpsRev shipR 30 envOffR 1
    (by norm_num [wpsRev]) (by norm_num [wpsRev])
  obtain ⟨p0, h0⟩ := calculateTrajectory_getD realOps wpsRev shipR 30 envOffR 0
    (by norm_num [wpsRev]) (by norm_num [wpsRev])
  rw [h1, h0, buildLeg_fst_turnAngle, buildLeg_fst_course, buildLeg_fst_course]
  have e1 : legCourse realOps wpsRev 1 = 90 :=
    show getBearing realOps ⟨(0 : ℝ), 0⟩ ⟨0, 1⟩ = 90 from bearing_east90
  have e0 : legCourse realOps wpsRev 0 = 270 :=
    show getBearing realOps ⟨(0 : ℝ), 1⟩ ⟨0, 0⟩ = 270 from bearing_west270
  rw [e1, e0, if_neg (by norm_num : ¬ (1 : ℕ) = 0)]
  unfold turnAngleOf specNormalize180
  rw [if_neg (by norm_num : ¬ (1 : ℕ) = 0)]
  have hceil : ⌈((90 - 270 - 180) / 360 : ℝ)⌉ = -1 := by
    rw [Int.ceil_eq_iff]
    norm_num
  rw [hceil]
  norm_num

omit [FloorRing α] in
theorem commandOf_of_ne (cl : α) (pc : Option α) (i : ℕ) (hi : i ≠ 0) :
    commandOf cl pc i =
      (if 5 < |turnAngleOf cl pc i| then
        (if 0 < turnAngleOf cl pc i then NavigationCommand.PORT
         else NavigationCommand.STARBOARD)
      else NavigationCommand.STRAIGHT) := by
  unfold commandOf
  rw [if_neg hi]

omit [FloorRing α] in
theorem turnAngleOf_of_ne (cl cp : α) (i : ℕ) (hi : i ≠ 0) :
    turnAngleOf cl (some cp) i =
      (if 180 < cl - cp then cl - cp - 360
       else if cl - cp < -180 then cl - cp + 360 else cl - cp) := by
  unfold turnAngleOf
  rw [if_neg hi]
  simp only [Option.getD_some]
  by_cases hgt : 180 < cl - cp
  · rw [if_pos hgt, if_pos hgt, if_neg (by linarith)]
  · rw [if_neg hgt, if_neg hgt]

omit [FloorRing α] in
theorem turnAngle_wrap_spec (cl cp : α) (i : ℕ) (hi : i ≠ 0)
    (h1 : 0 ≤ cl) (h2 : cl < 360) (h3 : 0 ≤ cp) (h4 : cp < 360) :
    (-180 ≤ turnAngleOf cl (some cp) i ∧ turnAngleOf cl (some cp) i ≤ 180) ∧
    (∃ k : ℤ, turnAngleOf cl (some cp) i = (cl - cp) + 360 * k) ∧
    (|turnAngleOf cl (some cp) i| ≤ 5 →
      commandOf cl (some cp) i = NavigationCommand.STRAIGHT) ∧
    (5 < turnAngleOf cl (some cp) i →
      commandOf cl (some cp) i = NavigationCommand.PORT) ∧
    (turnAngleOf cl (some cp) i < -5 →
      commandOf cl (some cp) i = NavigationCommand.STARBOARD) := by
  have ht := turnAngleOf_of_ne cl cp i hi
  refine ⟨⟨?_, ?_⟩, ?_, ?_, ?_, ?_⟩
  · rw [ht]; split_ifs <;> linarith
  · rw [ht]; split_ifs <;> linarith
  · rw [ht]; split_ifs with hgt hlt
    · exact ⟨-1, by push_cast; ring⟩
    · exact ⟨1, by push_cast; ring⟩
    · exact ⟨0, by push_cast; ring⟩
  · intro h
    rw [commandOf_of_ne cl (some cp) i hi, if_neg (not_lt.mpr h)]
  · intro h
    rw [commandOf_of_ne cl (some cp) i hi,
      if_pos (lt_of_lt_of_le h (le_abs_self _)), if_pos (by linarith)]
  · intro h
    rw [commandOf_of_ne cl (some cp) i hi,
      if_pos (lt_of_lt_of_le (by linarith) (neg_le_abs _)),
      if_neg (not_lt.mpr (by linarith))]

/-- C3 (amended): the first leg's command is START; for every later real
leg whose course and previous course lie in [0, 360), the turn angle is
the course difference shifted by a multiple of 360 into [−180, 180]
(with a difference of exactly −180 kept at −180 rather than mapped to
+180), and the command is STRAIGHT when |turnAngle| ≤ 5, PORT when
turnAngle > 5, STARBOARD when turnAngle < −5. -/
theorem claim_C3 (ops : MathOps α) (wps : List (Waypoint α)) (ship : Ship α)
    (pd : α) (env : EnvironmentalFactors α) (i : ℕ) :
    (2 ≤ wps.length →
      ((calculateTrajectory ops wps ship pd env).getD 0 default).command =
        NavigationCommand.START) ∧
    (1 ≤ i → i < wps.length - 1 →
      0 ≤ ((calculateTrajectory ops wps ship pd env).getD i default).course →
      ((calculateTrajectory ops wps ship pd env).getD i default).course < 360 →
      0 ≤ ((calculateTrajectory ops wps ship pd env).getD (i - 1) default).course →
      ((calculateTrajectory ops wps ship pd env).getD (i - 1) default).course < 360 →
      (-180 ≤ ((calculateTrajectory ops wps ship pd env).getD i default).turnAngle ∧
        ((calculateTrajectory ops wps ship pd env).getD i default).turnAngle ≤ 180) ∧
      (∃ k : ℤ, ((calculateTrajectory ops wps ship pd env).getD i default).turnAngle =
        (((calculateTrajectory ops wps ship pd env).getD i default).course -
         ((calculateTrajectory ops wps ship pd env).getD (i - 1) default).course) + 360 * k) ∧
      (|((calculateTrajectory ops wps ship pd env).getD i default).turnAngle| ≤ 5 →
        ((calculateTrajectory ops wps ship pd env).getD i default).command =
          NavigationCommand.STRAIGHT) ∧
      (5 < ((calculateTrajectory ops wps ship pd env).getD i default).turnAngle →
        ((calculateTrajectory ops wps ship pd env).getD i default).command =
          NavigationCommand.PORT) ∧
      (((calculateTrajectory ops wps ship pd env).getD i default).turnAngle < -5 →
        ((calculateTrajectory ops wps ship pd env).getD i default).command =
          NavigationCommand.STARBOARD)) := by
  constructor
  · intro h2
    obtain ⟨p0, h0⟩ := calculateTrajectory_getD ops wps ship pd env 0 h2 (by omega)
    rw [h0, buildLeg_fst_command]
    unfold commandOf
    rw [if_pos rfl]
  · intro h1 hi hc1 hc2 hc3 hc4
    have h2 : 2 ≤ wps.length := by omega
    obtain ⟨p1, hg1⟩ := calculateTrajectory_getD ops wps ship pd env i h2 hi
    obtain ⟨p0, hg0⟩ := calculateTrajectory_getD ops wps ship pd env (i - 1) h2 (by omega)
    rw [hg1] at hc1 hc2 ⊢
    rw [hg0] at hc3 hc4 ⊢
    rw [buildLeg_fst_course] at hc1 hc2
    rw [buildLeg_fst_course] at hc3 hc4
    rw [buildLeg_fst_turnAngle, buildLeg_fst_command, buildLeg_fst_course,
      buildLeg_fst_course, if_neg (by omega : ¬ i = 0)]
    exact turnAngle_wrap_spec (legCourse ops wps i) (legCourse ops wps (i - 1)) i
      (by omega) hc1 hc2 hc3 hc4

/-- Witness for the amended C3 on a concrete three-waypoint plan. -/
theorem claim_C3_witness :
    ((calculateTrajectory zeroOps wps3Q shipQ 10 envOff).getD 0 default).command =
      NavigationCommand.START ∧
    (-180 ≤ ((calculateTrajectory zeroOps wps3Q shipQ 10 envOff).getD 1 default).turnAngle ∧
      ((calculateTrajectory zeroOps wps3Q shipQ 10 envOff).getD 1 default).turnAngle ≤ 180) ∧
    ((calculateTrajectory zeroOps wps3Q shipQ 10 envOff).getD 1 default).command =
      NavigationCommand.STRAIGHT := by
  have hc1 : ((calculateTrajectory zeroOps wps3Q shipQ 10 envOff).getD 1 default).course = 0 := by
    obtain ⟨p, h⟩ := calculateTrajectory_getD zeroOps wps3Q shipQ 10 envOff 1
      (by decide) (by decide)
    rw [h, buildLeg_fst_course]
    unfold legCourse
    exact getBearing_zeroOps _ _ (by decide)
  have hc0 : ((calculateTrajectory zeroOps wps3Q shipQ 10 envOff).getD 0 default).course = 0 := by
    obtain ⟨p, h⟩ := calculateTrajectory_getD zeroOps wps3Q shipQ 10 envOff 0
      (by decide) (by decide)
    rw [h, buildLeg_fst_course]
    unfold legCourse
    exact getBearing_zeroOps _ _ (by decide)
  have hta : ((calculateTrajectory zeroOps wps3Q shipQ 10 envOff).getD 1 default).turnAngle
      = 0 := by
    obtain ⟨p, h⟩ := calculateTrajectory_getD zeroOps wps3Q shipQ 10 envOff 1
      (by decide) (by decide)
    rw [h, buildLeg_fst_turnAngle, if_neg (by norm_num : ¬ (1 : ℕ) = 0)]
    have e1 : legCourse zeroOps wps3Q 1 = 0 := by
      unfold legCourse
      exact getBearing_zeroOps _ _ (by decide)
    have e0 : legCourse zeroOps wps3Q 0 = 0 := by
      unfold legCourse
      exact getBearing_zeroOps _ _ (by decide)
    rw [turnAngleOf_of_ne _ _ _ (by norm_num), e1, e0]
    norm_num
  obtain ⟨hstart, hrest⟩ := claim_C3 zeroOps wps3Q shipQ 10 envOff 1
  obtain ⟨hrange, hk, hstraight, h5, h6⟩ := hrest (by decide) (by decide)
    (by rw [hc1]) (by rw [hc1]; norm_num) (by rw [hc0]) (by rw [hc0]; norm_num)
  exact ⟨hstart (by decide), hrange, hstraight (by rw [hta]; norm_num)⟩

theorem selectLeg_step (legs : List (TrajectoryLeg α)) (ct : α) (fuel i : ℕ) (acc : α) :
    selectLeg legs ct (fuel + 1) i acc =
      (match legs.get? i with
       | none => none
       | some leg =>
         if leg.command = NavigationCommand.END then selectLeg legs ct fuel (i + 1) acc
         else if ct ≤ acc + leg.time ∨ (i : ℤ) = (legs.length : ℤ) - 2 then
           some (i, ct - acc)
         else selectLeg legs ct fuel (i + 1) (acc + leg.time)) := rfl

omit [FloorRing α] in
theorem wrapSeq_eq (a0 : α) :
    wrapSeq a0 =
      (if 180 < a0 then a0 - 360 else if a0 < -180 then a0 + 360 else a0) := by
  unfold wrapSeq
  by_cases hgt : 180 < a0
  · rw [if_pos hgt, if_pos hgt, if_neg (by linarith)]
  · rw [if_neg hgt, if_neg hgt]

omit [FloorRing α] in
theorem wrapSeq_exists (a0 : α) : ∃ k : ℤ, wrapSeq a0 = a0 + 360 * k := by
  rw [wrapSeq_eq]
  by_cases h1 : 180 < a0
  · rw [if_pos h1]
    exact ⟨-1, by push_cast; ring⟩
  · rw [if_neg h1]
    by_cases h2 : a0 < -180
    · rw [if_pos h2]
      exact ⟨1, by push_cast; ring⟩
    · rw [if_neg h2]
      exact ⟨0, by push_cast; ring⟩

omit [FloorRing α] in
theorem wrapSeq_abs_le (a0 : α) (h1 : -360 < a0) (h2 : a0 < 360) : |wrapSeq a0| ≤ 180 := by
  rw [wrapSeq_eq]
  split_ifs <;> rw [abs_le] <;> constructor <;> linarith

theorem legStateAt_pivot (ops : MathOps α) (legs : List (TrajectoryLeg α))
    (wps : List (Waypoint α)) (ppp : List (GeoPoint α)) (i : ℕ) (tin : α)
    (hpiv : tin < (legs.getD i default).pivotTime)
    (hpt : 0 < (legs.getD i default).pivotTime) :
    legStateAt ops legs wps ppp i tin =
      ⟨ppp.getD i default,
       (if 0 < i then (legs.getD (i - 1) default).endHeading
        else (legs.getD i default).startHeading) +
         wrapSeq ((legs.getD i default).startHeading -
           (if 0 < i then (legs.getD (i - 1) default).endHeading
            else (legs.getD i default).startHeading)) *
           (tin / (legs.getD i default).pivotTime), 0⟩ := by
  unfold legStateAt
  rw [if_pos hpiv, if_pos hpt]
  rfl

/-- C8: when the playback walk lands inside a leg's pivot phase, the
interpolator returns speed 0, position fixed at the leg's predicted-path
node (the raw waypoint when no leg carries a predicted end), and a heading
linearly interpolated between the previous leg's endHeading and this leg's
startHeading along the angular difference wrapped to ±180. -/
theorem claim_C8 (ops : MathOps α) (legs : List (TrajectoryLeg α))
    (wps : List (Waypoint α)) (progress totalDuration : α) (i : ℕ) (tin : α)
    (hT : 0 < totalDuration)
    (hsel : selectLeg legs (progress * totalDuration) legs.length 0 0 = some (i, tin))
    (h0 : 0 ≤ tin)
    (hpiv : tin < (legs.getD i default).pivotTime)
    (hs1 : 0 ≤ (if 0 < i then (legs.getD (i - 1) default).endHeading
        else (legs.getD i default).startHeading))
    (hs2 : (if 0 < i then (legs.getD (i - 1) default).endHeading
        else (legs.getD i default).startHeading) < 360)
    (he1 : 0 ≤ (legs.getD i default).startHeading)
    (he2 : (legs.getD i default).startHeading < 360) :
    (∃ d : α,
      calculateAnimationState ops legs wps progress totalDuration =
        some ⟨(predictedPathPoints legs wps).getD i default,
          (if 0 < i then (legs.getD (i - 1) default).endHeading
           else (legs.getD i default).startHeading) +
            d * (tin / (legs.getD i default).pivotTime), 0⟩ ∧
      |d| ≤ 180 ∧
      (∃ k : ℤ, d = ((legs.getD i default).startHeading -
        (if 0 < i then (legs.getD (i - 1) default).endHeading
         else (legs.getD i default).startHeading)) + 360 * k)) ∧
    ((∀ l ∈ legs, l.predictedEnd = none) →
      predictedPathPoints legs wps = wps.map Waypoint.toGeoPoint) := by
  have hpt : 0 < (legs.getD i default).pivotTime := lt_of_le_of_lt h0 hpiv
  constructor
  · refine ⟨wrapSeq ((legs.getD i default).startHeading -
      (if 0 < i then (legs.getD (i - 1) default).endHeading
       else (legs.getD i default).startHeading)), ?_, ?_, ?_⟩
    · unfold calculateAnimationState
      simp only [hsel]
      rw [legStateAt_pivot ops legs wps _ i tin hpiv hpt]
    · exact wrapSeq_abs_le _ (by linarith) (by linarith)
    · exact wrapSeq_exists _
  · intro hnone
    unfold predictedPathPoints
    rw [if_pos]
    right
    simp only [List.any_eq_true, not_exists]
    intro l hmem
    rcases hmem with ⟨hl, hp⟩
    rw [hnone l hl] at hp
    simp at hp

/-- Witness for C8: a pivot-phase playback moment on a concrete leg
sequence (time 6 of 24 lands 2 seconds into the second leg's 10-second
pivot, interpolating the heading from 90 toward 100). -/
theorem claim_C8_witness :
    calculateAnimationState zeroOps demoLegs wps3Q 1 6 =
      some ⟨(predictedPathPoints demoLegs wps3Q).getD 1 default, 90 + 10 * (2 / 10), 0⟩ ∧
    predictedPathPoints demoLegs wps3Q = wps3Q.map Waypoint.toGeoPoint := by
  have hchain : selectLeg demoLegs (6 : ℚ) 3 0 0 = some (1, 2) := by
    have s1 : selectLeg demoLegs (6 : ℚ) 3 0 0 = selectLeg demoLegs 6 2 1 4 := by
      show selectLeg demoLegs (6 : ℚ) (2 + 1) 0 0 = _
      rw [selectLeg_step]
      norm_num [demoLegs, legA]
      intro h
      exact absurd h (by decide)
    have s2 : selectLeg demoLegs (6 : ℚ) 2 1 4 = some (1, 6 - 4) := by
      show selectLeg demoLegs (6 : ℚ) (1 + 1) 1 4 = _
      rw [selectLeg_step]
      norm_num [demoLegs, legB]
      intro h
      exact absurd h (by decide)
    rw [s1, s2]
    norm_num
  have hsel : selectLeg demoLegs ((1 : ℚ) * 6) demoLegs.length 0 0 = some (1, 2) := by
    rw [one_mul]
    exact hchain
  obtain ⟨⟨d, heq, habs, k, hk⟩, hppp⟩ := claim_C8 zeroOps demoLegs wps3Q 1 6 1 2
    (by decide) hsel (by decide) (by decide) (by decide) (by decide) (by decide) (by decide)
  have hk2 : d = 10 + 360 * (k : ℚ) := by
    have e : ((demoLegs.getD 1 default).startHeading -
        (if 0 < 1 then (demoLegs.getD 0 default).endHeading
         else (demoLegs.getD 1 default).startHeading)) = (10 : ℚ) := by
      norm_num [demoLegs, legA, legB]
    rw [e] at hk
    exact hk
  have hk0 : k = 0 := by
    rw [hk2, abs_le] at habs
    obtain ⟨hl, hr⟩ := habs
    have h1 : ((k : ℚ)) < 1 := by linarith
    have h2 : (-1 : ℚ) < k := by linarith
    have h3 : k < 1 := by exact_mod_cast h1
    have h4 : -1 < k := by exact_mod_cast h2
    omega
  have hd : d = 10 := by
    rw [hk2, hk0]
    norm_num
  rw [hd] at heq
  exact ⟨heq, hppp (by decide)⟩

end Harbor
